import Mathlib

/-!
Shallow embedding of `src/src/libImaging/ColorLUT.c` (pillow-simd),
the 3D color lookup-table transform `ImagingColorLUT3D_linear`.

Machine arithmetic is modelled with `Nat`/`Int`:
a 32-bit arithmetic shift right by `n` is `Int` division by `2^n`
(in Lean, `/` on `Int` is euclidean division, which coincides with
floor division for positive divisors), `x &&& (2^k - 1)` is `x % 2^k`,
and a store to a 16-bit lane followed by a signed 16-bit read is
`wrap16`.  All SSE lane values stay well inside 32 bits (the largest
products are bounded by `2^15 * (2^15 - 1) * 2 < 2^31`), so 32-bit
lanes are modelled exactly by `Int`.
-/

namespace ColorLUT

/-- Line 15: `PRECISION_BITS (16 - 8 - 2)` = 6. -/
def PRECISION_BITS : Nat := 16 - 8 - 2

/-- Line 16: `PRECISION_ROUNDING (1<<(PRECISION_BITS-1))` = 32. -/
def PRECISION_ROUNDING : Nat := 2 ^ (PRECISION_BITS - 1)

/-- Line 21: `SCALE_BITS (32 - 8 - 6)` = 18. -/
def SCALE_BITS : Nat := 32 - 8 - 6

/-- Line 22: `SCALE_MASK ((1<<SCALE_BITS) - 1)`. -/
def SCALE_MASK : Nat := 2 ^ SCALE_BITS - 1

/-- Line 24: `SHIFT_BITS (16 - 1)` = 15. -/
def SHIFT_BITS : Nat := 16 - 1

/-- A pixel: four interleaved 8-bit samples (UINT8 images store four
bytes per pixel; bands beyond `Image.bands` are padding). -/
structure Pix where
  c0 : Nat
  c1 : Nat
  c2 : Nat
  c3 : Nat
deriving DecidableEq

instance : Inhabited Pix := ⟨⟨0, 0, 0, 0⟩⟩

/-- Reinterpret the low 16 bits of an integer as a signed 16-bit value:
a store into an `INT16` slot (or a 16-bit SSE lane) followed by a
signed read. -/
def wrap16 (x : Int) : Int := (x + 2 ^ 15) % 2 ^ 16 - 2 ^ 15

/-- Lines 184-185: `_mm_packs_epi32` followed by `_mm_packus_epi16`:
a 32-bit lane saturated to signed 16 bits and then to an unsigned
byte, i.e. clamped to `[0, 255]`. -/
def clamp8 (x : Int) : Nat := (min 255 (max 0 x)).toNat

/-- Lines 88-91: `(sizeD - 1) / 255.0 * (1<<SCALE_BITS)` truncated to
`int`.  The C code computes this in `double`; for `2 ≤ size ≤ 65` the
double result truncates to exactly `⌊(size-1)·2^SCALE_BITS / 255⌋`:
the exact rational `(size-1)·2^18/255` is never an integer (255 never
divides `(size-1)·2^18` for `1 ≤ size-1 ≤ 64`), it is at distance at
least `1/255` from every integer, and the double rounding error is
below `2^-30`, so truncation toward zero is unaffected. -/
def scaleCoef (size : Nat) : Nat := (size - 1) * 2 ^ SCALE_BITS / 255

/-- Lines 122-123 / 129-130: one lane of
`_mm_mullo_epi32(scale, _mm_cvtepu8_epi32(...))`: the fixed-point grid
coordinate of input channel value `v` for an axis of size `size`. -/
def idxFixed (size v : Nat) : Nat := scaleCoef size * v

/-- Line 126 / 133: `_mm_srli_epi32(index, SCALE_BITS)`: the integer
grid index along one axis. -/
def gridIndex (size v : Nat) : Nat := idxFixed size v / 2 ^ SCALE_BITS

/-- Lines 135-136: `_mm_srli_epi32(_mm_and_si128(scale_mask, index),
SCALE_BITS - SHIFT_BITS)`: the fractional interpolation weight of one
axis, in `[0, 2^SHIFT_BITS)`.  `x &&& SCALE_MASK` is `x % 2^18`. -/
def fracShift (size v : Nat) : Nat :=
  idxFixed size v % 2 ^ SCALE_BITS / 2 ^ (SCALE_BITS - SHIFT_BITS)

/-- Lines 49-54: `table_index3D`. -/
def table_index3D (index1D index2D index3D size1D size1D_2D : Nat) : Nat :=
  index1D + index2D * size1D + index3D * size1D_2D

/-- One 32-bit lane of `_mm_madd_epi16(source, shiftD)` followed by the
arithmetic shift right by `SHIFT_BITS` (lines 152-153 etc.): the lane
holds the 16-bit pair `(a, b)` (a grid value and its +1 neighbour along
axis 1D) and the shift vector holds the pair
`(2^SHIFT_BITS - 1 - s, s)` (line 141-143). -/
def axisBlend (a b s : Int) : Int := (a * (2 ^ 15 - 1 - s) + b * s) / 2 ^ 15

/-- A full blend stage: the madd-and-shift result is kept as 16 bits of
a lane (`left_mask` / `right_mask` + `or`, lines 152-176) and consumed
as a signed 16-bit half by the next `_mm_madd_epi16`; both the
`_mm_srai_epi32`+`left_mask` route and the `_mm_slli_epi32`+`right_mask`
route keep exactly the low 16 bits of the shifted value. -/
def blendStage (a b s : Int) : Int := wrap16 (axisBlend a b s)

/-- Lines 122-186, the per-pixel work of the `table_channels == 3` SSE
path, one output pixel from one input pixel.

The flat base offset `idx` (lines 124-127) is
`table_channels * (i1 + i2*size1D + i3*size1D_2D)`: `index_mul` holds
`(1, size1D, size1D_2D, 0)`, every factor and every grid index fits in
the low 16 bits of its lane, so the `_mm_madd_epi16` and the two
`_mm_hadd_epi32` produce exactly this dot product.

Each `_mm_loadu_si128`/`_mm_shuffle_epi8` pair (lines 150-168) places
in lane `j < 3` the 16-bit pair `(table[base+j], table[base+3+j])`, the
two corners along axis 1D; lane 3 is filled with zero bytes by the
`-1` entries of `shuffle_source`.  Lines 178-185: the final madd with
`shift3D`, the `PRECISION_ROUNDING << SHIFT_BITS` bias, the arithmetic
shift by `PRECISION_BITS + SHIFT_BITS`, and the two saturating packs.
`rowOut[x]` is a `UINT32` store, so all four bytes are written. -/
def lutPixel3 (size1D size2D size3D : Nat) (table : Nat → Int) (p : Pix) : Pix :=
  let size1D_2D := size1D * size2D
  let idx := 3 * table_index3D (gridIndex size1D p.c0) (gridIndex size2D p.c1)
      (gridIndex size3D p.c2) size1D size1D_2D
  let s1 : Int := (fracShift size1D p.c0 : Nat)
  let s2 : Int := (fracShift size2D p.c1 : Nat)
  let s3 : Int := (fracShift size3D p.c2 : Nat)
  let ll0 := blendStage (table (idx + 0)) (table (idx + 3 + 0)) s1
  let ll1 := blendStage (table (idx + 1)) (table (idx + 3 + 1)) s1
  let ll2 := blendStage (table (idx + 2)) (table (idx + 3 + 2)) s1
  let lr0 := blendStage (table (idx + size1D * 3 + 0)) (table (idx + size1D * 3 + 3 + 0)) s1
  let lr1 := blendStage (table (idx + size1D * 3 + 1)) (table (idx + size1D * 3 + 3 + 1)) s1
  let lr2 := blendStage (table (idx + size1D * 3 + 2)) (table (idx + size1D * 3 + 3 + 2)) s1
  let rl0 := blendStage (table (idx + size1D_2D * 3 + 0)) (table (idx + size1D_2D * 3 + 3 + 0)) s1
  let rl1 := blendStage (table (idx + size1D_2D * 3 + 1)) (table (idx + size1D_2D * 3 + 3 + 1)) s1
  let rl2 := blendStage (table (idx + size1D_2D * 3 + 2)) (table (idx + size1D_2D * 3 + 3 + 2)) s1
  let rr0 := blendStage (table (idx + size1D_2D * 3 + size1D * 3 + 0))
      (table (idx + size1D_2D * 3 + size1D * 3 + 3 + 0)) s1
  let rr1 := blendStage (table (idx + size1D_2D * 3 + size1D * 3 + 1))
      (table (idx + size1D_2D * 3 + size1D * 3 + 3 + 1)) s1
  let rr2 := blendStage (table (idx + size1D_2D * 3 + size1D * 3 + 2))
      (table (idx + size1D_2D * 3 + size1D * 3 + 3 + 2)) s1
  let left0 := blendStage ll0 lr0 s2
  let left1 := blendStage ll1 lr1 s2
  let left2 := blendStage ll2 lr2 s2
  let right0 := blendStage rl0 rr0 s2
  let right1 := blendStage rl1 rr1 s2
  let right2 := blendStage rl2 rr2 s2
  -- lane 3 carries the all-zero source words through the same stages
  let zero3 := blendStage (blendStage 0 0 s1) (blendStage 0 0 s1) s2
  let res0 := left0 * (2 ^ 15 - 1 - s3) + right0 * s3
  let res1 := left1 * (2 ^ 15 - 1 - s3) + right1 * s3
  let res2 := left2 * (2 ^ 15 - 1 - s3) + right2 * s3
  let res3 := zero3 * (2 ^ 15 - 1 - s3) + zero3 * s3
  ⟨clamp8 ((2 ^ 20 + res0) / 2 ^ 21), clamp8 ((2 ^ 20 + res1) / 2 ^ 21),
   clamp8 ((2 ^ 20 + res2) / 2 ^ 21), clamp8 ((2 ^ 20 + res3) / 2 ^ 21)⟩

/-- Modelled from the spec: `clip8_lookups` (used by `clip8`, line 29)
is an external precomputed table that is not under src/.  Spec section
4.1 step 7: a monotonic clip sending values below 0 to 0, values above
255 to 255, and others through the rounding
`(value + PRECISION_ROUNDING) >> PRECISION_BITS`. -/
def clip8 (x : Int) : Nat := clamp8 ((x + (PRECISION_ROUNDING : Int)) / 2 ^ PRECISION_BITS)

/-- Lines 32-38: the scalar reference lerp `interpolate3`, with the
exact complementary weight `(1<<SHIFT_BITS) - shift`.  Each output is
stored into an `INT16` slot, hence `wrap16`. -/
def interpolate3 (a b : Int × Int × Int) (shift : Int) : Int × Int × Int :=
  (wrap16 ((a.1 * (2 ^ 15 - shift) + b.1 * shift) / 2 ^ 15),
   wrap16 ((a.2.1 * (2 ^ 15 - shift) + b.2.1 * shift) / 2 ^ 15),
   wrap16 ((a.2.2 * (2 ^ 15 - shift) + b.2.2 * shift) / 2 ^ 15))

/-- Lines 40-47: `interpolate4`, the 4-channel scalar lerp. -/
def interpolate4 (a b : Int × Int × Int × Int) (shift : Int) : Int × Int × Int × Int :=
  (wrap16 ((a.1 * (2 ^ 15 - shift) + b.1 * shift) / 2 ^ 15),
   wrap16 ((a.2.1 * (2 ^ 15 - shift) + b.2.1 * shift) / 2 ^ 15),
   wrap16 ((a.2.2.1 * (2 ^ 15 - shift) + b.2.2.1 * shift) / 2 ^ 15),
   wrap16 ((a.2.2.2 * (2 ^ 15 - shift) + b.2.2.2 * shift) / 2 ^ 15))

/-- Three consecutive table elements starting at flat offset `n`: one
3-channel grid-corner vector. -/
def tbl3 (table : Nat → Int) (n : Nat) : Int × Int × Int :=
  (table n, table (n + 1), table (n + 2))

/-- Four consecutive table elements starting at flat offset `n`. -/
def tbl4 (table : Nat → Int) (n : Nat) : Int × Int × Int × Int :=
  (table n, table (n + 1), table (n + 2), table (n + 3))

/-- Modelled from the spec: the scalar reference path for 3 channels.
No scalar 3-channel code ships under src/; spec section 9 ("SIMD/scalar
duality") describes it as the nested-lerp formula `interpolate3`
applied along axis 0, then axis 1, then axis 2, followed by the
rounding clip, with the same corner addressing as the commented
4-channel block (lines 188-205). -/
def scalarPixel3 (size1D size2D size3D : Nat) (table : Nat → Int) (p : Pix) :
    Nat × Nat × Nat :=
  let size1D_2D := size1D * size2D
  let idx := 3 * table_index3D (gridIndex size1D p.c0) (gridIndex size2D p.c1)
      (gridIndex size3D p.c2) size1D size1D_2D
  let s1 : Int := (fracShift size1D p.c0 : Nat)
  let s2 : Int := (fracShift size2D p.c1 : Nat)
  let s3 : Int := (fracShift size3D p.c2 : Nat)
  let ll := interpolate3 (tbl3 table (idx + 0)) (tbl3 table (idx + 3)) s1
  let lr := interpolate3 (tbl3 table (idx + size1D * 3)) (tbl3 table (idx + size1D * 3 + 3)) s1
  let rl := interpolate3 (tbl3 table (idx + size1D_2D * 3))
      (tbl3 table (idx + size1D_2D * 3 + 3)) s1
  let rr := interpolate3 (tbl3 table (idx + size1D_2D * 3 + size1D * 3))
      (tbl3 table (idx + size1D_2D * 3 + size1D * 3 + 3)) s1
  let left := interpolate3 ll lr s2
  let right := interpolate3 rl rr s2
  let res := interpolate3 left right s3
  (clip8 res.1, clip8 res.2.1, clip8 res.2.2)

/-- The scalar 3-channel nested lerp using the SSE path's biased
complementary weight `(1<<SHIFT_BITS) - 1 - shift` (line 142) at every
stage, otherwise identical to `scalarPixel3`. -/
def scalarPixel3biased (size1D size2D size3D : Nat) (table : Nat → Int) (p : Pix) :
    Nat × Nat × Nat :=
  let size1D_2D := size1D * size2D
  let idx := 3 * table_index3D (gridIndex size1D p.c0) (gridIndex size2D p.c1)
      (gridIndex size3D p.c2) size1D size1D_2D
  let s1 : Int := (fracShift size1D p.c0 : Nat)
  let s2 : Int := (fracShift size2D p.c1 : Nat)
  let s3 : Int := (fracShift size3D p.c2 : Nat)
  let ll := fun j => blendStage (table (idx + j)) (table (idx + 3 + j)) s1
  let lr := fun j => blendStage (table (idx + size1D * 3 + j)) (table (idx + size1D * 3 + 3 + j)) s1
  let rl := fun j => blendStage (table (idx + size1D_2D * 3 + j))
      (table (idx + size1D_2D * 3 + 3 + j)) s1
  let rr := fun j => blendStage (table (idx + size1D_2D * 3 + size1D * 3 + j))
      (table (idx + size1D_2D * 3 + size1D * 3 + 3 + j)) s1
  let left := fun j => blendStage (ll j) (lr j) s2
  let right := fun j => blendStage (rl j) (rr j) s2
  let res := fun j => blendStage (left j) (right j) s3
  (clip8 (res 0), clip8 (res 1), clip8 (res 2))

/-- Lines 188-205: the `table_channels == 4` per-pixel path.  This
block is commented out (disabled) in the source; it is embedded here
verbatim from that comment, using the live `interpolate4` and `clip8`,
so that claims about the 4-channel variant can be stated. -/
def quadPixel (size1D size2D size3D : Nat) (table : Nat → Int) (p : Pix) : Pix :=
  let size1D_2D := size1D * size2D
  let idx := 4 * table_index3D (gridIndex size1D p.c0) (gridIndex size2D p.c1)
      (gridIndex size3D p.c2) size1D size1D_2D
  let s1 : Int := (fracShift size1D p.c0 : Nat)
  let s2 : Int := (fracShift size2D p.c1 : Nat)
  let s3 : Int := (fracShift size3D p.c2 : Nat)
  let leftleft := interpolate4 (tbl4 table (idx + 0)) (tbl4 table (idx + 4)) s1
  let leftright := interpolate4 (tbl4 table (idx + size1D * 4))
      (tbl4 table (idx + size1D * 4 + 4)) s1
  let left := interpolate4 leftleft leftright s2
  let rightleft := interpolate4 (tbl4 table (idx + size1D_2D * 4))
      (tbl4 table (idx + size1D_2D * 4 + 4)) s1
  let rightright := interpolate4 (tbl4 table (idx + size1D_2D * 4 + size1D * 4))
      (tbl4 table (idx + size1D_2D * 4 + size1D * 4 + 4)) s1
  let right := interpolate4 rightleft rightright s2
  let res := interpolate4 left right s3
  ⟨clip8 res.1, clip8 res.2.1, clip8 res.2.2.1, clip8 res.2.2.2⟩

/-- Lines 128-206: the inner x-loop of the 3-channel path.  `cur` is
the pixel whose scaled coordinates sit in the `index`/`idx` registers,
loaded by the loop preamble (lines 122-127) from pixel 0 of the row.
Each iteration computes the prefetched `next_index`/`next_idx` from the
pixel at `x + 1` (lines 129-134), but the loop body never assigns them
back to `index`/`idx`, so the carried pixel never advances: every
iteration emits the transform of the row's first pixel.  (The prefetch
loads themselves are modelled by the strict variant below.) -/
def lutRow3Go (size1D size2D size3D : Nat) (table : Nat → Int) (cur : Pix) :
    Nat → List Pix
  | 0 => []
  | fuel + 1 =>
    lutPixel3 size1D size2D size3D table cur ::
      lutRow3Go size1D size2D size3D table cur fuel

/-- Lines 119-206: one full output row of the 3-channel path (the loop
preamble loads pixel 0, then runs `xsize` iterations, all of them from
pixel 0's registers). -/
def lutRow3 (size1D size2D size3D : Nat) (table : Nat → Int) (rowIn : List Pix)
    (xsize : Nat) : List Pix :=
  lutRow3Go size1D size2D size3D table (rowIn.getD 0 default) xsize

/-- The same inner loop with total (Option-valued) row indexing:
every read, including the one-pixel-ahead prefetch at `x + 1`
(line 130), must be in range or the whole row computation is `none`.
The prefetched value is read and then discarded, exactly as in the
source (`next_index`/`next_idx` are never consumed). -/
def lutRow3StrictGo (size1D size2D size3D : Nat) (table : Nat → Int) (rowIn : List Pix)
    (cur : Pix) (x : Nat) : Nat → Option (List Pix)
  | 0 => some []
  | fuel + 1 =>
    match rowIn[x + 1]? with
    | none => none
    | some _ =>
      (lutRow3StrictGo size1D size2D size3D table rowIn cur (x + 1) fuel).map
        (lutPixel3 size1D size2D size3D table cur :: ·)

/-- One output row with total (Option-valued) row indexing, including
the preamble load of pixel 0 (lines 122-127). -/
def lutRow3Strict (size1D size2D size3D : Nat) (table : Nat → Int) (rowIn : List Pix)
    (xsize : Nat) : Option (List Pix) :=
  (rowIn[0]?).bind fun c0 =>
    lutRow3StrictGo size1D size2D size3D table rowIn c0 0 xsize

/-- Pixel storage types of the Imaging collaborator
(`IMAGING_TYPE_UINT8` and the others declared in Imaging.h). -/
inductive ImagingType
  | uint8
  | int32
  | float32
deriving DecidableEq

/-- The two error kinds: line 101 (`PyErr_SetString(PyExc_ValueError, ...)`,
InvalidArgument) and lines 110/115 (`ImagingError_ModeError`,
ModeMismatch). -/
inductive LutErr
  | invalidArgument
  | modeMismatch
deriving DecidableEq

/-- An image: dimensions, band count, pixel storage type, and row-major
pixel rows. -/
structure Image where
  xsize : Nat
  ysize : Nat
  bands : Nat
  type : ImagingType
  pixels : List (List Pix)
deriving DecidableEq

/-- Lines 72-211: `ImagingColorLUT3D_linear`.  The first component of
the result is the final content of `imOut` (the C function mutates
`imOut` in place and returns it, or returns an error leaving `imOut`
untouched); the second component is the error, if any.

Order of work as in the source: the `table_channels` check (lines
100-103), the mode checks (lines 105-116), then the pixel loop.  Only
the `table_channels == 3` branch (lines 149-186) writes pixels; the
`table_channels == 4` block (lines 188-205) is commented out, so for
`table_channels == 4` the loop runs without writing anything.  Because
the x-loop never assigns `next_index`/`next_idx` back to `index`/`idx`,
every written pixel of row `y` is the transform of that row's first
input pixel (see `lutRow3`). -/
def ImagingColorLUT3D_linear (imOut imIn : Image) (table_channels size1D size2D size3D : Nat)
    (table : Nat → Int) : Image × Option LutErr :=
  if table_channels < 3 ∨ 4 < table_channels then
    (imOut, some .invalidArgument)
  else if imIn.type ≠ .uint8 ∨ imOut.type ≠ .uint8 ∨
      imIn.bands < 3 ∨ imOut.bands < table_channels then
    (imOut, some .modeMismatch)
  else if table_channels < imOut.bands ∧ imIn.bands < imOut.bands then
    (imOut, some .modeMismatch)
  else if table_channels = 3 then
    ({ imOut with
        pixels := (List.range imOut.ysize).map fun y =>
          lutRow3 size1D size2D size3D table (imIn.pixels.getD y []) imOut.xsize },
      none)
  else
    (imOut, none)

/-- Modelled from the spec: the identity table value of grid node `i`
on an axis of size `size` (claim C6; spec section 8, "Identity table
property").  Node `i` sits at intensity `i · 255/(size-1)`; stored
scaled by `2^PRECISION_BITS` and rounded to the nearest integer:
`round (i · 255 · 2^PRECISION_BITS / (size-1))`. -/
def idVal (size i : Nat) : Nat :=
  (2 * i * (255 * 2 ^ PRECISION_BITS) + (size - 1)) / (2 * (size - 1))

/-- Modelled from the spec: the 3-channel identity table for grid sizes
`s1 × s2 × s3`, laid out channel-first as in the source header comment
(lines 66-68): flat element `n` is channel `n % 3` of the grid node
`(m % s1, m / s1 % s2, m / (s1*s2))` where `m = n / 3`. -/
def idTable (s1 s2 s3 : Nat) : Nat → Int := fun n =>
  let c := n % 3
  let m := n / 3
  ((if c = 0 then idVal s1 (m % s1)
    else if c = 1 then idVal s2 (m / s1 % s2)
    else idVal s3 (m / (s1 * s2))) : Nat)

/-- A zero-weight blend stage collapses to
`x * (2^SHIFT_BITS - 1) >> SHIFT_BITS`, which loses 1 from every
positive value: the `Nat` form of that decay. -/
def gDecay (x : Nat) : Nat := x * (2 ^ 15 - 1) / 2 ^ 15

/-- The `Nat` form of one axis blend of the SSE path
(`axisBlend` on non-negative in-range values). -/
def blendN (a b s : Nat) : Nat := (a * (2 ^ 15 - 1 - s) + b * s) / 2 ^ 15

/-- The `Nat` form of the final rounding stage of the SSE path (lines
180-185): add `PRECISION_ROUNDING << SHIFT_BITS`, shift right by
`PRECISION_BITS + SHIFT_BITS`, saturate to a byte. -/
def roundClamp (r : Nat) : Nat := min 255 ((2 ^ 20 + r) / 2 ^ 21)

/-- Channel 0 of the 3-channel SSE path on a separable (identity)
table, as a function of its own axis only: the axis-0 blend happens
first, followed by two equal-operand (decay) stages. -/
def chanV1 (size v : Nat) : Nat :=
  roundClamp (gDecay (blendN (idVal size (gridIndex size v))
    (idVal size (gridIndex size v + 1)) (fracShift size v)) * (2 ^ 15 - 1))

/-- Channel 1 of the 3-channel SSE path on a separable (identity)
table: a decay stage, then the axis-1 blend, then an equal-operand
final stage. -/
def chanV2 (size v : Nat) : Nat :=
  roundClamp (blendN (gDecay (idVal size (gridIndex size v)))
    (gDecay (idVal size (gridIndex size v + 1))) (fracShift size v) * (2 ^ 15 - 1))

/-- Channel 2 of the 3-channel SSE path on a separable (identity)
table: two decay stages, then the axis-2 blend fused with the final
rounding. -/
def chanV3 (size v : Nat) : Nat :=
  roundClamp (gDecay (gDecay (idVal size (gridIndex size v))) * (2 ^ 15 - 1 - fracShift size v)
    + gDecay (gDecay (idVal size (gridIndex size v + 1))) * fracShift size v)

/-! ## Helper lemmas -/

/-- For every admissible grid size the biased scale constant satisfies
`scaleCoef size * 255 < (size-1) * 2^SCALE_BITS` (255 never divides
`(size-1) * 2^18`), which is what keeps the last grid cell
unreachable. -/
theorem scale255_lt : ∀ s : Nat, s < 64 → scaleCoef (s + 2) * 255 < (s + 1) * 2 ^ 18 := by
  decide

/-- The computed base grid index never reaches the last cell. -/
theorem gridIndex_le (size v : Nat) (h2 : 2 ≤ size) (h65 : size ≤ 65) (hv : v ≤ 255) :
    gridIndex size v ≤ size - 2 := by
  have hs := scale255_lt (size - 2) (by omega)
  have hs' : scaleCoef size * 255 < (size - 1) * 2 ^ 18 := by
    have : size - 2 + 2 = size := by omega
    rw [this] at hs
    have : size - 2 + 1 = size - 1 := by omega
    rwa [this] at hs
  have hle : idxFixed size v ≤ scaleCoef size * 255 :=
    Nat.mul_le_mul_left _ hv
  have hlt : idxFixed size v < (size - 1) * 2 ^ 18 := lt_of_le_of_lt hle hs'
  have : gridIndex size v < size - 1 := by
    rw [gridIndex, SCALE_BITS]
    exact Nat.div_lt_of_lt_mul (by rw [Nat.mul_comm]; exact hlt)
  omega

/-- Strict form: the +1 neighbour index stays inside the axis. -/
theorem gridIndex_add_one_lt (size v : Nat) (h2 : 2 ≤ size) (h65 : size ≤ 65)
    (hv : v ≤ 255) : gridIndex size v + 1 < size := by
  have := gridIndex_le size v h2 h65 hv
  omega

/-- The fractional weight of every axis is below `2^SHIFT_BITS`. -/
theorem fracShift_le (size v : Nat) : fracShift size v ≤ 2 ^ 15 - 1 := by
  have h : idxFixed size v % 2 ^ SCALE_BITS < 2 ^ 18 := by
    have : (2 : Nat) ^ SCALE_BITS = 2 ^ 18 := by norm_num [SCALE_BITS]
    rw [this]
    exact Nat.mod_lt _ (by norm_num)
  have : fracShift size v < 2 ^ 15 := by
    rw [fracShift]
    have h8 : (2 : Nat) ^ (SCALE_BITS - SHIFT_BITS) = 8 := by norm_num [SCALE_BITS, SHIFT_BITS]
    rw [h8]
    exact Nat.div_lt_of_lt_mul (by norm_num at h ⊢; omega)
  omega

/-- The identity table stores values in the representable range
`[0, 255 << PRECISION_BITS]`. -/
theorem idVal_le (size i : Nat) (h2 : 2 ≤ size) (hi : i ≤ size - 1) :
    idVal size i ≤ 16320 := by
  rw [idVal]
  have hnum : 2 * i * (255 * 2 ^ PRECISION_BITS) + (size - 1) ≤
      16320 * (2 * (size - 1)) + (2 * (size - 1) - 1) := by
    have h1 : 2 * i * (255 * 2 ^ PRECISION_BITS) ≤ 2 * (size - 1) * 16320 := by
      have : (255 : Nat) * 2 ^ PRECISION_BITS = 16320 := by norm_num [PRECISION_BITS]
      rw [this]
      have : 2 * i ≤ 2 * (size - 1) := by omega
      exact Nat.mul_le_mul_right _ this
    have h2' : 2 * (size - 1) * 16320 = 16320 * (2 * (size - 1)) := by ring
    omega
  have hpos : 0 < 2 * (size - 1) := by omega
  calc (2 * i * (255 * 2 ^ PRECISION_BITS) + (size - 1)) / (2 * (size - 1))
      ≤ (16320 * (2 * (size - 1)) + (2 * (size - 1) - 1)) / (2 * (size - 1)) :=
        Nat.div_le_div_right hnum
    _ ≤ 16320 := by
        rw [Nat.div_le_iff_le_mul_add_pred hpos]
        omega

/-- An axis blend of values bounded by `M` is bounded by `M`
(the two weights sum to `2^SHIFT_BITS - 1 < 2^SHIFT_BITS`). -/
theorem blendN_le (a b s M : Nat) (ha : a ≤ M) (hb : b ≤ M) (hs : s ≤ 2 ^ 15 - 1) :
    blendN a b s ≤ M := by
  rw [blendN]
  have h : a * (2 ^ 15 - 1 - s) + b * s ≤ M * (2 ^ 15 - 1 - s) + M * s :=
    Nat.add_le_add (Nat.mul_le_mul_right _ ha) (Nat.mul_le_mul_right _ hb)
  have h2 : M * (2 ^ 15 - 1 - s) + M * s = M * (2 ^ 15 - 1) := by
    rw [← Nat.mul_add]
    congr 1
    omega
  have h3 : a * (2 ^ 15 - 1 - s) + b * s ≤ M * (2 ^ 15 - 1) := by
    rw [← h2]
    exact h
  calc (a * (2 ^ 15 - 1 - s) + b * s) / 2 ^ 15
      ≤ M * (2 ^ 15 - 1) / 2 ^ 15 := Nat.div_le_div_right h3
    _ ≤ M * 2 ^ 15 / 2 ^ 15 :=
        Nat.div_le_div_right (Nat.mul_le_mul_left _ (by norm_num))
    _ = M := Nat.mul_div_cancel _ (by norm_num)

/-- On non-negative 16-bit values `wrap16` is the identity. -/
theorem wrap16_coe (n : Nat) (h : n < 2 ^ 15) : wrap16 (n : Int) = (n : Int) := by
  rw [wrap16]
  have h1 : (0 : Int) ≤ (n : Int) + 2 ^ 15 := by positivity
  have h2 : (n : Int) + 2 ^ 15 < 2 ^ 16 := by
    have : (n : Int) < 2 ^ 15 := by exact_mod_cast h
    omega
  rw [Int.emod_eq_of_lt h1 h2]
  omega

/-- The `Int` blend stage of the SSE path agrees with the `Nat` blend
on in-range inputs: no 16-bit lane ever wraps. -/
theorem blendStage_coe (a b s : Nat) (ha : a < 2 ^ 15) (hb : b < 2 ^ 15)
    (hs : s ≤ 2 ^ 15 - 1) :
    blendStage (a : Int) (b : Int) (s : Int) = ((blendN a b s : Nat) : Int) := by
  have hcast : ((2 : Int) ^ 15 - 1 - (s : Int)) = ((2 ^ 15 - 1 - s : Nat) : Int) := by
    simp only [show ((2 : Int) ^ 15) = 32768 from by norm_num,
      show ((2 : Nat) ^ 15) = 32768 from by norm_num]
    omega
  have hblend : axisBlend (a : Int) (b : Int) (s : Int) = ((blendN a b s : Nat) : Int) := by
    rw [axisBlend, blendN, hcast]
    have hnum : ((a : Int) * ((2 ^ 15 - 1 - s : Nat) : Int) + (b : Int) * (s : Int)) =
        ((a * (2 ^ 15 - 1 - s) + b * s : Nat) : Int) := by
      push_cast
      ring
    rw [hnum]
    generalize a * (2 ^ 15 - 1 - s) + b * s = X
    simp only [show ((2 : Int) ^ 15) = 32768 from by norm_num,
      show ((2 : Nat) ^ 15) = 32768 from by norm_num]
    omega
  rw [blendStage, hblend]
  apply wrap16_coe
  have hM : blendN a b s ≤ 2 ^ 15 - 1 :=
    blendN_le a b s (2 ^ 15 - 1) (by omega) (by omega) hs
  omega

/-- A blend of two equal values is the one-off decay `gDecay`. -/
theorem blendN_self (a s : Nat) (hs : s ≤ 2 ^ 15 - 1) : blendN a a s = gDecay a := by
  rw [blendN, gDecay]
  congr 1
  rw [← Nat.mul_add]
  congr 1
  omega

/-- A blend stage fed all-zero lane halves yields zero. -/
theorem blendStage_zero (s : Int) : blendStage 0 0 s = 0 := by
  simp [blendStage, axisBlend, wrap16]

/-- On a `Nat` cast, `clamp8` is saturation to 255. -/
theorem clamp8_coe (n : Nat) : clamp8 (n : Int) = min 255 n := by
  rw [clamp8]
  have h1 : max 0 (n : Int) = (n : Int) := max_eq_right (by positivity)
  rw [h1]
  rcases le_or_lt (n : Int) 255 with h | h
  · rw [min_eq_right h, Int.toNat_natCast]
    have : n ≤ 255 := by exact_mod_cast h
    omega
  · rw [min_eq_left (le_of_lt h)]
    have : 255 < n := by exact_mod_cast h
    simp
    omega

/-- The final madd-round-shift-pack stage (lines 178-185) agrees with
the `Nat` form `roundClamp` on in-range lane values. -/
theorem finalStage_coe (u w s : Nat) (hs : s ≤ 2 ^ 15 - 1) :
    clamp8 ((2 ^ 20 + ((u : Int) * (2 ^ 15 - 1 - (s : Int)) + (w : Int) * (s : Int))) / 2 ^ 21) =
      roundClamp (u * (2 ^ 15 - 1 - s) + w * s) := by
  have hcast : ((2 : Int) ^ 15 - 1 - (s : Int)) = ((2 ^ 15 - 1 - s : Nat) : Int) := by
    simp only [show ((2 : Int) ^ 15) = 32768 from by norm_num,
      show ((2 : Nat) ^ 15) = 32768 from by norm_num]
    omega
  rw [hcast]
  have : (2 ^ 20 + ((u : Int) * ((2 ^ 15 - 1 - s : Nat) : Int) + (w : Int) * (s : Int))) =
      (((2 ^ 20 + (u * (2 ^ 15 - 1 - s) + w * s) : Nat) : Int)) := by
    push_cast
    ring
  rw [this]
  have hq : (((2 ^ 20 + (u * (2 ^ 15 - 1 - s) + w * s) : Nat) : Int)) / 2 ^ 21 =
      (((2 ^ 20 + (u * (2 ^ 15 - 1 - s) + w * s)) / 2 ^ 21 : Nat) : Int) := by
    generalize 2 ^ 20 + (u * (2 ^ 15 - 1 - s) + w * s) = X
    simp only [show ((2 : Int) ^ 21) = 2097152 from by norm_num,
      show ((2 : Nat) ^ 21) = 2097152 from by norm_num]
    omega
  rw [hq, clamp8_coe, roundClamp]

/-- Decoding a flat channel-first offset of the identity table: element
`3 * table_index3D i j k s1 (s1*s2) + c` is the identity value of the
node coordinate selected by channel `c`. -/
theorem idTable_read (s1 s2 s3 i j k c : Nat) (hi : i < s1) (hj : j < s2) (hc : c < 3) :
    idTable s1 s2 s3 (3 * table_index3D i j k s1 (s1 * s2) + c) =
      (((if c = 0 then idVal s1 i else if c = 1 then idVal s2 j else idVal s3 k) : Nat) : Int) := by
  have hs1 : 0 < s1 := by omega
  have hmod3 : (3 * (i + j * s1 + k * (s1 * s2)) + c) % 3 = c := by
    rw [Nat.mul_add_mod]
    exact Nat.mod_eq_of_lt hc
  have hdiv3 : (3 * (i + j * s1 + k * (s1 * s2)) + c) / 3 = i + j * s1 + k * (s1 * s2) := by
    rw [Nat.mul_add_div (by norm_num)]
    omega
  have hsplit : i + j * s1 + k * (s1 * s2) = i + s1 * (j + s2 * k) := by ring
  have hm1 : (i + j * s1 + k * (s1 * s2)) % s1 = i := by
    rw [hsplit, Nat.add_mul_mod_self_left, Nat.mod_eq_of_lt hi]
  have hd1 : (i + j * s1 + k * (s1 * s2)) / s1 % s2 = j := by
    rw [hsplit, Nat.add_mul_div_left _ _ hs1, Nat.div_eq_of_lt hi, Nat.zero_add,
      Nat.add_mul_mod_self_left, Nat.mod_eq_of_lt hj]
  have hlt : i + j * s1 < s1 * s2 := by
    calc i + j * s1 < s1 + j * s1 := by omega
      _ = (j + 1) * s1 := by ring
      _ ≤ s2 * s1 := Nat.mul_le_mul_right _ (by omega)
      _ = s1 * s2 := by ring
  have hd2 : (i + j * s1 + k * (s1 * s2)) / (s1 * s2) = k := by
    have h : i + j * s1 + k * (s1 * s2) = (i + j * s1) + (s1 * s2) * k := by ring
    have hpos : 0 < s1 * s2 := by
      have : 0 < s2 := by omega
      exact Nat.mul_pos hs1 this
    rw [h, Nat.add_mul_div_left _ _ hpos, Nat.div_eq_of_lt hlt, Nat.zero_add]
  simp only [idTable, table_index3D, hmod3, hdiv3, hm1, hd1, hd2]

/-- Channel 0 of a grid node of the identity table. -/
theorem idTable_read0 (s1 s2 s3 i j k : Nat) (hi : i < s1) (hj : j < s2) :
    idTable s1 s2 s3 (3 * table_index3D i j k s1 (s1 * s2)) = ((idVal s1 i : Nat) : Int) := by
  have h := idTable_read s1 s2 s3 i j k 0 hi hj (by norm_num)
  rw [Nat.add_zero] at h
  rw [h]
  norm_num

/-- Channel 1 of a grid node of the identity table. -/
theorem idTable_read1 (s1 s2 s3 i j k : Nat) (hi : i < s1) (hj : j < s2) :
    idTable s1 s2 s3 (3 * table_index3D i j k s1 (s1 * s2) + 1) = ((idVal s2 j : Nat) : Int) := by
  rw [idTable_read s1 s2 s3 i j k 1 hi hj (by norm_num)]
  norm_num

/-- Channel 2 of a grid node of the identity table. -/
theorem idTable_read2 (s1 s2 s3 i j k : Nat) (hi : i < s1) (hj : j < s2) :
    idTable s1 s2 s3 (3 * table_index3D i j k s1 (s1 * s2) + 2) = ((idVal s3 k : Nat) : Int) := by
  rw [idTable_read s1 s2 s3 i j k 2 hi hj (by norm_num)]
  norm_num


theorem weightCollapse (u s : Nat) (hs : s ≤ 2 ^ 15 - 1) :
    u * (2 ^ 15 - 1 - s) + u * s = u * (2 ^ 15 - 1) := by
  rw [← Nat.mul_add]
  congr 1
  omega

theorem gDecay_le (x : Nat) : gDecay x ≤ x := by
  rw [gDecay]
  calc x * (2 ^ 15 - 1) / 2 ^ 15 ≤ x * 2 ^ 15 / 2 ^ 15 :=
        Nat.div_le_div_right (Nat.mul_le_mul_left _ (by norm_num))
    _ = x := Nat.mul_div_cancel _ (by norm_num)

set_option maxHeartbeats 1000000 in
theorem lutPixel3_idTable (s1 s2 s3 r g b a : Nat)
    (hs1 : 2 ≤ s1) (hs1' : s1 ≤ 65) (hs2 : 2 ≤ s2) (hs2' : s2 ≤ 65)
    (hs3 : 2 ≤ s3) (hs3' : s3 ≤ 65) (hr : r ≤ 255) (hg : g ≤ 255) (hb : b ≤ 255) :
    lutPixel3 s1 s2 s3 (idTable s1 s2 s3) ⟨r, g, b, a⟩ =
      ⟨chanV1 s1 r, chanV2 s2 g, chanV3 s3 b, 0⟩ := by
  have hi1 : gridIndex s1 r + 1 < s1 := gridIndex_add_one_lt s1 r hs1 hs1' hr
  have hi2 : gridIndex s2 g + 1 < s2 := gridIndex_add_one_lt s2 g hs2 hs2' hg
  have hi3 : gridIndex s3 b + 1 < s3 := gridIndex_add_one_lt s3 b hs3 hs3' hb
  have hsh1 : fracShift s1 r ≤ 2 ^ 15 - 1 := fracShift_le s1 r
  have hsh2 : fracShift s2 g ≤ 2 ^ 15 - 1 := fracShift_le s2 g
  have hsh3 : fracShift s3 b ≤ 2 ^ 15 - 1 := fracShift_le s3 b
  have hA1 : idVal s1 (gridIndex s1 r) ≤ 16320 := idVal_le s1 _ hs1 (by omega)
  have hB1 : idVal s1 (gridIndex s1 r + 1) ≤ 16320 := idVal_le s1 _ hs1 (by omega)
  have hA2 : idVal s2 (gridIndex s2 g) ≤ 16320 := idVal_le s2 _ hs2 (by omega)
  have hB2 : idVal s2 (gridIndex s2 g + 1) ≤ 16320 := idVal_le s2 _ hs2 (by omega)
  have hA3 : idVal s3 (gridIndex s3 b) ≤ 16320 := idVal_le s3 _ hs3 (by omega)
  have hB3 : idVal s3 (gridIndex s3 b + 1) ≤ 16320 := idVal_le s3 _ hs3 (by omega)
  simp only [lutPixel3, Nat.add_zero]
  -- rewrite the eight corner base offsets into decoded node form
  have E100 : 3 * table_index3D (gridIndex s1 r) (gridIndex s2 g) (gridIndex s3 b) s1 (s1 * s2) + 3
      = 3 * table_index3D (gridIndex s1 r + 1) (gridIndex s2 g) (gridIndex s3 b) s1 (s1 * s2) := by
    simp only [table_index3D]
    ring
  have E010 : 3 * table_index3D (gridIndex s1 r) (gridIndex s2 g) (gridIndex s3 b) s1 (s1 * s2) + s1 * 3
      = 3 * table_index3D (gridIndex s1 r) (gridIndex s2 g + 1) (gridIndex s3 b) s1 (s1 * s2) := by
    simp only [table_index3D]
    ring
  have E001 : 3 * table_index3D (gridIndex s1 r) (gridIndex s2 g) (gridIndex s3 b) s1 (s1 * s2) + s1 * s2 * 3
      = 3 * table_index3D (gridIndex s1 r) (gridIndex s2 g) (gridIndex s3 b + 1) s1 (s1 * s2) := by
    simp only [table_index3D]
    ring
  rw [E100, E010, E001]
  have E110 : 3 * table_index3D (gridIndex s1 r) (gridIndex s2 g + 1) (gridIndex s3 b) s1 (s1 * s2) + 3
      = 3 * table_index3D (gridIndex s1 r + 1) (gridIndex s2 g + 1) (gridIndex s3 b) s1 (s1 * s2) := by
    simp only [table_index3D]
    ring
  have E101 : 3 * table_index3D (gridIndex s1 r) (gridIndex s2 g) (gridIndex s3 b + 1) s1 (s1 * s2) + 3
      = 3 * table_index3D (gridIndex s1 r + 1) (gridIndex s2 g) (gridIndex s3 b + 1) s1 (s1 * s2) := by
    simp only [table_index3D]
    ring
  have E011 : 3 * table_index3D (gridIndex s1 r) (gridIndex s2 g) (gridIndex s3 b + 1) s1 (s1 * s2) + s1 * 3
      = 3 * table_index3D (gridIndex s1 r) (gridIndex s2 g + 1) (gridIndex s3 b + 1) s1 (s1 * s2) := by
    simp only [table_index3D]
    ring
  rw [E110, E101, E011]
  have E111 : 3 * table_index3D (gridIndex s1 r) (gridIndex s2 g + 1) (gridIndex s3 b + 1) s1 (s1 * s2) + 3
      = 3 * table_index3D (gridIndex s1 r + 1) (gridIndex s2 g + 1) (gridIndex s3 b + 1) s1 (s1 * s2) := by
    simp only [table_index3D]
    ring
  rw [E111]
  -- resolve all 24 table reads
  rw [idTable_read0 s1 s2 s3 _ _ _ (by omega) (by omega),
      idTable_read0 s1 s2 s3 _ _ _ (by omega) (by omega),
      idTable_read0 s1 s2 s3 _ _ _ (by omega) (by omega),
      idTable_read0 s1 s2 s3 _ _ _ (by omega) (by omega),
      idTable_read0 s1 s2 s3 _ _ _ (by omega) (by omega),
      idTable_read0 s1 s2 s3 _ _ _ (by omega) (by omega),
      idTable_read0 s1 s2 s3 _ _ _ (by omega) (by omega),
      idTable_read0 s1 s2 s3 _ _ _ (by omega) (by omega)]
  rw [idTable_read1 s1 s2 s3 _ _ _ (by omega) (by omega),
      idTable_read1 s1 s2 s3 _ _ _ (by omega) (by omega),
      idTable_read1 s1 s2 s3 _ _ _ (by omega) (by omega),
      idTable_read1 s1 s2 s3 _ _ _ (by omega) (by omega),
      idTable_read1 s1 s2 s3 _ _ _ (by omega) (by omega),
      idTable_read1 s1 s2 s3 _ _ _ (by omega) (by omega),
      idTable_read1 s1 s2 s3 _ _ _ (by omega) (by omega),
      idTable_read1 s1 s2 s3 _ _ _ (by omega) (by omega)]
  rw [idTable_read2 s1 s2 s3 _ _ _ (by omega) (by omega),
      idTable_read2 s1 s2 s3 _ _ _ (by omega) (by omega),
      idTable_read2 s1 s2 s3 _ _ _ (by omega) (by omega),
      idTable_read2 s1 s2 s3 _ _ _ (by omega) (by omega),
      idTable_read2 s1 s2 s3 _ _ _ (by omega) (by omega),
      idTable_read2 s1 s2 s3 _ _ _ (by omega) (by omega),
      idTable_read2 s1 s2 s3 _ _ _ (by omega) (by omega),
      idTable_read2 s1 s2 s3 _ _ _ (by omega) (by omega)]
  -- stage 1 blends
  have S1a : blendStage ((idVal s1 (gridIndex s1 r) : Nat) : Int)
      ((idVal s1 (gridIndex s1 r + 1) : Nat) : Int) ((fracShift s1 r : Nat) : Int)
      = ((blendN (idVal s1 (gridIndex s1 r)) (idVal s1 (gridIndex s1 r + 1)) (fracShift s1 r) : Nat) : Int) :=
    blendStage_coe _ _ _ (by omega) (by omega) hsh1
  have S1b : blendStage ((idVal s2 (gridIndex s2 g) : Nat) : Int)
      ((idVal s2 (gridIndex s2 g) : Nat) : Int) ((fracShift s1 r : Nat) : Int)
      = ((gDecay (idVal s2 (gridIndex s2 g)) : Nat) : Int) := by
    rw [blendStage_coe _ _ _ (by omega) (by omega) hsh1, blendN_self _ _ hsh1]
  have S1c : blendStage ((idVal s2 (gridIndex s2 g + 1) : Nat) : Int)
      ((idVal s2 (gridIndex s2 g + 1) : Nat) : Int) ((fracShift s1 r : Nat) : Int)
      = ((gDecay (idVal s2 (gridIndex s2 g + 1)) : Nat) : Int) := by
    rw [blendStage_coe _ _ _ (by omega) (by omega) hsh1, blendN_self _ _ hsh1]
  have S1d : blendStage ((idVal s3 (gridIndex s3 b) : Nat) : Int)
      ((idVal s3 (gridIndex s3 b) : Nat) : Int) ((fracShift s1 r : Nat) : Int)
      = ((gDecay (idVal s3 (gridIndex s3 b)) : Nat) : Int) := by
    rw [blendStage_coe _ _ _ (by omega) (by omega) hsh1, blendN_self _ _ hsh1]
  have S1e : blendStage ((idVal s3 (gridIndex s3 b + 1) : Nat) : Int)
      ((idVal s3 (gridIndex s3 b + 1) : Nat) : Int) ((fracShift s1 r : Nat) : Int)
      = ((gDecay (idVal s3 (gridIndex s3 b + 1)) : Nat) : Int) := by
    rw [blendStage_coe _ _ _ (by omega) (by omega) hsh1, blendN_self _ _ hsh1]
  rw [S1a, S1b, S1c, S1d, S1e, blendStage_zero]
  -- stage 2 blends
  have hst1 : blendN (idVal s1 (gridIndex s1 r)) (idVal s1 (gridIndex s1 r + 1)) (fracShift s1 r) ≤ 16320 :=
    blendN_le _ _ _ _ hA1 hB1 hsh1
  have S2a : blendStage
      ((blendN (idVal s1 (gridIndex s1 r)) (idVal s1 (gridIndex s1 r + 1)) (fracShift s1 r) : Nat) : Int)
      ((blendN (idVal s1 (gridIndex s1 r)) (idVal s1 (gridIndex s1 r + 1)) (fracShift s1 r) : Nat) : Int)
      ((fracShift s2 g : Nat) : Int)
      = ((gDecay (blendN (idVal s1 (gridIndex s1 r)) (idVal s1 (gridIndex s1 r + 1)) (fracShift s1 r)) : Nat) : Int) := by
    rw [blendStage_coe _ _ _ (by omega) (by omega) hsh2, blendN_self _ _ hsh2]
  have S2b : blendStage ((gDecay (idVal s2 (gridIndex s2 g)) : Nat) : Int)
      ((gDecay (idVal s2 (gridIndex s2 g + 1)) : Nat) : Int) ((fracShift s2 g : Nat) : Int)
      = ((blendN (gDecay (idVal s2 (gridIndex s2 g))) (gDecay (idVal s2 (gridIndex s2 g + 1))) (fracShift s2 g) : Nat) : Int) := by
    have d1 := gDecay_le (idVal s2 (gridIndex s2 g))
    have d2 := gDecay_le (idVal s2 (gridIndex s2 g + 1))
    exact blendStage_coe _ _ _ (by omega) (by omega) hsh2
  have S2c : blendStage ((gDecay (idVal s3 (gridIndex s3 b)) : Nat) : Int)
      ((gDecay (idVal s3 (gridIndex s3 b)) : Nat) : Int) ((fracShift s2 g : Nat) : Int)
      = ((gDecay (gDecay (idVal s3 (gridIndex s3 b))) : Nat) : Int) := by
    have d1 := gDecay_le (idVal s3 (gridIndex s3 b))
    rw [blendStage_coe _ _ _ (by omega) (by omega) hsh2, blendN_self _ _ hsh2]
  have S2d : blendStage ((gDecay (idVal s3 (gridIndex s3 b + 1)) : Nat) : Int)
      ((gDecay (idVal s3 (gridIndex s3 b + 1)) : Nat) : Int) ((fracShift s2 g : Nat) : Int)
      = ((gDecay (gDecay (idVal s3 (gridIndex s3 b + 1))) : Nat) : Int) := by
    have d1 := gDecay_le (idVal s3 (gridIndex s3 b + 1))
    rw [blendStage_coe _ _ _ (by omega) (by omega) hsh2, blendN_self _ _ hsh2]
  rw [S2a, S2b, S2c, S2d, blendStage_zero]
  -- final stage
  rw [finalStage_coe _ _ _ hsh3, finalStage_coe _ _ _ hsh3, finalStage_coe _ _ _ hsh3,
      weightCollapse _ _ hsh3, weightCollapse _ _ hsh3]
  have hzero : (0 : Int) * (2 ^ 15 - 1 - ((fracShift s3 b : Nat) : Int))
      + 0 * ((fracShift s3 b : Nat) : Int) = 0 := by ring
  rw [hzero]
  have hlast : clamp8 ((2 ^ 20 + (0 : Int)) / 2 ^ 21) = 0 := by decide
  rw [hlast]
  simp only [chanV1, chanV2, chanV3]

/-- The stuck-index row loop emits the transform of the carried
(pixel 0) registers at every iteration. -/
theorem lutRow3Go_eq (s1 s2 s3 : Nat) (t : Nat → Int) (cur : Pix) :
    ∀ fuel : Nat, lutRow3Go s1 s2 s3 t cur fuel =
      List.replicate fuel (lutPixel3 s1 s2 s3 t cur) := by
  intro fuel
  induction fuel with
  | zero => rfl
  | succ n ih => simp only [lutRow3Go, List.replicate_succ, ih]

/-- The row loop writes the transform of the row's first input pixel to
every position of the output row. -/
theorem lutRow3_eq_replicate (s1 s2 s3 : Nat) (t : Nat → Int) (rowIn : List Pix)
    (xsize : Nat) :
    lutRow3 s1 s2 s3 t rowIn xsize =
      List.replicate xsize (lutPixel3 s1 s2 s3 t (rowIn.getD 0 default)) := by
  rw [lutRow3, lutRow3Go_eq]

/-- Reading an in-range element of a mapped range. -/
theorem getD_map_range {α : Type} (n y : Nat) (f : Nat → α) (d : α) (hy : y < n) :
    (((List.range n).map f).getD y d) = f y := by
  rw [List.getD_eq_getElem?_getD, List.getElem?_map, List.getElem?_range hy]
  rfl

/-- Reading an in-range element of a replicated list. -/
theorem getD_replicate {α : Type} (n x : Nat) (a d : α) (hx : x < n) :
    (List.replicate n a).getD x d = a := by
  rw [List.getD_eq_getElem?_getD, List.getElem?_replicate]
  simp [hx]

/-- One output pixel of the row loop: independent of `x`, always the
transform of the row's first input pixel. -/
theorem lutRow3_getD (s1 s2 s3 : Nat) (t : Nat → Int) (rowIn : List Pix) (xsize x : Nat)
    (hx : x < xsize) :
    (lutRow3 s1 s2 s3 t rowIn xsize).getD x default =
      lutPixel3 s1 s2 s3 t (rowIn.getD 0 default) := by
  rw [lutRow3_eq_replicate, getD_replicate _ _ _ _ hx]

/-- On a successful 3-channel call, the output pixel at `(x, y)` is the
per-pixel function of the input pixel at `(0, y)` — the first pixel of
the same row, since the loop never advances `index`/`idx`. -/
theorem colorLUT3_pixel (imOut imIn : Image) (s1 s2 s3 : Nat) (table : Nat → Int) (x y : Nat)
    (ht : imIn.type = .uint8) (ht' : imOut.type = .uint8)
    (hb : 3 ≤ imIn.bands) (hb' : 3 ≤ imOut.bands)
    (he : ¬(3 < imOut.bands ∧ imIn.bands < imOut.bands))
    (hx : x < imOut.xsize) (hy : y < imOut.ysize) :
    ((ImagingColorLUT3D_linear imOut imIn 3 s1 s2 s3 table).1.pixels.getD y []).getD x default =
      lutPixel3 s1 s2 s3 table ((imIn.pixels.getD y []).getD 0 default) := by
  have hc1 : ¬((3 : Nat) < 3 ∨ 4 < 3) := by omega
  have hc2 : ¬(imIn.type ≠ ImagingType.uint8 ∨ imOut.type ≠ ImagingType.uint8 ∨
      imIn.bands < 3 ∨ imOut.bands < 3) := by
    push_neg
    exact ⟨ht, ht', hb, hb'⟩
  rw [ImagingColorLUT3D_linear, if_neg hc1, if_neg hc2, if_neg he, if_pos rfl]
  simp only
  rw [getD_map_range _ _ _ _ hy, lutRow3_getD _ _ _ _ _ _ _ hx]

/-- The strict (Option-indexed) inner loop always fails: its final
iteration prefetches one pixel past the end of the row. -/
theorem lutRow3StrictGo_none (s1 s2 s3 : Nat) (t : Nat → Int) (rowIn : List Pix) :
    ∀ (fuel : Nat) (cur : Pix) (x : Nat), rowIn.length = x + fuel → 1 ≤ fuel →
      lutRow3StrictGo s1 s2 s3 t rowIn cur x fuel = none := by
  intro fuel
  induction fuel with
  | zero => intro cur x _ h1; omega
  | succ n ih =>
    intro cur x hlen _
    rcases Nat.eq_zero_or_pos n with hn | hn
    · subst hn
      have hnone : rowIn[x + 1]? = none := by
        rw [List.getElem?_eq_none_iff]
        omega
      simp only [lutRow3StrictGo, hnone]
    · have hlt : x + 1 < rowIn.length := by omega
      have hsome : rowIn[x + 1]? = some rowIn[x + 1] := List.getElem?_eq_getElem hlt
      simp only [lutRow3StrictGo, hsome]
      rw [ih _ (x + 1) (by omega) (by omega)]
      rfl

/-- On `[0, 2^15)` the 16-bit store-and-reload is the identity. -/
theorem wrap16_eq (x : Int) (h0 : 0 ≤ x) (h : x < 2 ^ 15) : wrap16 x = x := by
  rw [wrap16, Int.emod_eq_of_lt (by omega) (by omega)]
  omega

/-- The madd-and-shift of one axis blend stays within
`[0, 255 << PRECISION_BITS]` when its operands do and the weight pair
is `(2^SHIFT_BITS - 1 - s, s)`. -/
theorem axisBlend_range (a b s : Int) (ha0 : 0 ≤ a) (ha : a ≤ 16320) (hb0 : 0 ≤ b)
    (hb : b ≤ 16320) (hs0 : 0 ≤ s) (hs : s ≤ 2 ^ 15 - 1) :
    0 ≤ axisBlend a b s ∧ axisBlend a b s ≤ 16320 := by
  rw [axisBlend]
  have h1 : (0 : Int) ≤ 2 ^ 15 - 1 - s := by omega
  have h2 := mul_nonneg ha0 h1
  have h3 := mul_nonneg hb0 hs0
  constructor
  · exact Int.ediv_nonneg (by omega) (by norm_num)
  · have h4 : a * (2 ^ 15 - 1 - s) ≤ 16320 * (2 ^ 15 - 1 - s) :=
      mul_le_mul_of_nonneg_right ha h1
    have h5 : b * s ≤ 16320 * s := mul_le_mul_of_nonneg_right hb hs0
    have h6 : (16320 : Int) * (2 ^ 15 - 1 - s) + 16320 * s = 16320 * (2 ^ 15 - 1) := by ring
    have hnum : a * (2 ^ 15 - 1 - s) + b * s ≤ 16320 * (2 ^ 15 - 1) := by omega
    calc (a * (2 ^ 15 - 1 - s) + b * s) / 2 ^ 15 ≤ 16320 * (2 ^ 15 - 1) / 2 ^ 15 :=
          Int.ediv_le_ediv (by norm_num) hnum
      _ ≤ 16320 := by decide

/-- A full blend stage on in-range operands does not wrap and stays in
range. -/
theorem blendStage_range (a b s : Int) (ha0 : 0 ≤ a) (ha : a ≤ 16320) (hb0 : 0 ≤ b)
    (hb : b ≤ 16320) (hs0 : 0 ≤ s) (hs : s ≤ 2 ^ 15 - 1) :
    blendStage a b s = axisBlend a b s ∧
      0 ≤ blendStage a b s ∧ blendStage a b s ≤ 16320 := by
  obtain ⟨hlo, hhi⟩ := axisBlend_range a b s ha0 ha hb0 hb hs0 hs
  have hw : wrap16 (axisBlend a b s) = axisBlend a b s := wrap16_eq _ hlo (by omega)
  rw [blendStage, hw]
  exact ⟨rfl, hlo, hhi⟩

/-- The fused final stage of the SSE path (madd with the axis-2 weight
pair, rounding bias, shift by `PRECISION_BITS + SHIFT_BITS`, saturating
packs) equals the scalar final lerp followed by the rounding clip. -/
theorem final_vs_clip (L R s : Int) (hL0 : 0 ≤ L) (hL : L ≤ 16320) (hR0 : 0 ≤ R)
    (hR : R ≤ 16320) (hs0 : 0 ≤ s) (hs : s ≤ 2 ^ 15 - 1) :
    clamp8 ((2 ^ 20 + (L * (2 ^ 15 - 1 - s) + R * s)) / 2 ^ 21) =
      clip8 (blendStage L R s) := by
  obtain ⟨hst, _, _⟩ := blendStage_range L R s hL0 hL hR0 hR hs0 hs
  rw [clip8, hst, axisBlend]
  have h1 : (0 : Int) ≤ 2 ^ 15 - 1 - s := by omega
  have h2 := mul_nonneg hL0 h1
  have h3 := mul_nonneg hR0 hs0
  have hcomp : (L * (2 ^ 15 - 1 - s) + R * s) / 2 ^ 15 + (PRECISION_ROUNDING : Int) =
      (L * (2 ^ 15 - 1 - s) + R * s + 2 ^ 20) / 2 ^ 15 := by
    have : (L * (2 ^ 15 - 1 - s) + R * s + 2 ^ 20) =
        L * (2 ^ 15 - 1 - s) + R * s + 32 * 2 ^ 15 := by norm_num
    rw [this, Int.add_mul_ediv_right _ _ (by norm_num : (2 : Int) ^ 15 ≠ 0)]
    norm_num [PRECISION_ROUNDING, PRECISION_BITS]
  rw [hcomp]
  have hz0 : (0 : Int) ≤ L * (2 ^ 15 - 1 - s) + R * s + 2 ^ 20 := by omega
  obtain ⟨n, hn⟩ := Int.eq_ofNat_of_zero_le hz0
  have hflat : (L * (2 ^ 15 - 1 - s) + R * s + 2 ^ 20) / 2 ^ 15 / 2 ^ PRECISION_BITS =
      (2 ^ 20 + (L * (2 ^ 15 - 1 - s) + R * s)) / 2 ^ 21 := by
    have hc : (2 ^ 20 + (L * (2 ^ 15 - 1 - s) + R * s)) = ((n : Nat) : Int) := by omega
    have h6 : ((2 : Int) ^ PRECISION_BITS) = ((2 ^ 6 : Nat) : Int) := by
      norm_num [PRECISION_BITS]
    have h15 : ((2 : Int) ^ 15) = ((2 ^ 15 : Nat) : Int) := by norm_num
    have h21 : ((2 : Int) ^ 21) = ((2 ^ 21 : Nat) : Int) := by norm_num
    rw [hn, hc, h6, h15, h21, ← Int.ofNat_ediv, ← Int.ofNat_ediv, ← Int.ofNat_ediv]
    norm_cast
    rw [Nat.div_div_eq_div_mul]
    norm_num
  rw [hflat]

/-- A blend with weight zero on the axis collapses to `gDecay` of the
first operand (`Nat` form). -/
theorem blendN_zero (a b : Nat) : blendN a b 0 = gDecay a := by
  simp [blendN, gDecay]

/-- A blend stage with weight zero collapses to the one-off decay of
its first operand; the second operand is irrelevant. -/
theorem blendStage_zero_wt (a b : Int) (h0 : 0 ≤ a) (ha : a ≤ 16320) :
    blendStage a b 0 = ((gDecay a.toNat : Nat) : Int) := by
  have hnum : a * (2 ^ 15 - 1 - 0) + b * 0 = ((a.toNat * (2 ^ 15 - 1) : Nat) : Int) := by
    push_cast [Int.toNat_of_nonneg h0]
    ring
  rw [blendStage, axisBlend, hnum]
  have hdiv : (((a.toNat * (2 ^ 15 - 1) : Nat) : Int)) / 2 ^ 15 =
      ((a.toNat * (2 ^ 15 - 1) / 2 ^ 15 : Nat) : Int) := by
    generalize a.toNat * (2 ^ 15 - 1) = X
    simp only [show ((2 : Int) ^ 15) = 32768 from by norm_num,
      show ((2 : Nat) ^ 15) = 32768 from by norm_num]
    omega
  rw [hdiv, show (a.toNat * (2 ^ 15 - 1) / 2 ^ 15 : Nat) = gDecay a.toNat from rfl]
  have hg : gDecay a.toNat ≤ a.toNat := gDecay_le _
  have hn : a.toNat ≤ 16320 := by omega
  exact wrap16_coe _ (by omega)

/-- The final stage with weight zero, `Nat` form. -/
theorem finalStage_zero_wt (u : Nat) (w : Int) :
    clamp8 ((2 ^ 20 + ((u : Int) * (2 ^ 15 - 1 - 0) + w * 0)) / 2 ^ 21) =
      roundClamp (u * (2 ^ 15 - 1)) := by
  have hnum : ((u : Int) * (2 ^ 15 - 1 - 0) + w * 0) = ((u * (2 ^ 15 - 1) : Nat) : Int) := by
    push_cast
    ring
  rw [hnum]
  have h : (2 ^ 20 + ((u * (2 ^ 15 - 1) : Nat) : Int)) =
      (((2 ^ 20 + u * (2 ^ 15 - 1) : Nat) : Int)) := by
    push_cast
    ring
  rw [h]
  have hdiv : (((2 ^ 20 + u * (2 ^ 15 - 1) : Nat) : Int)) / 2 ^ 21 =
      (((2 ^ 20 + u * (2 ^ 15 - 1)) / 2 ^ 21 : Nat) : Int) := by
    generalize 2 ^ 20 + u * (2 ^ 15 - 1) = X
    simp only [show ((2 : Int) ^ 21) = 2097152 from by norm_num,
      show ((2 : Nat) ^ 21) = 2097152 from by norm_num]
    omega
  rw [hdiv, clamp8_coe, roundClamp]

/-- A grid-cell index with every per-axis index at most `size - 1`
stays below the number of grid cells. -/
theorem tableIndex_lt (s1 s2 s3 a b c : Nat) (ha : a + 1 ≤ s1) (hb : b + 1 ≤ s2)
    (hc : c + 1 ≤ s3) : table_index3D a b c s1 (s1 * s2) < s1 * s2 * s3 := by
  rw [table_index3D]
  have h1 : s1 + b * s1 = (b + 1) * s1 := by ring
  have h2 : (b + 1) * s1 ≤ s2 * s1 := Nat.mul_le_mul_right _ hb
  have h3 : s2 * s1 + c * (s1 * s2) = (c + 1) * (s1 * s2) := by ring
  have h4 : (c + 1) * (s1 * s2) ≤ s3 * (s1 * s2) := Nat.mul_le_mul_right _ hc
  have h5 : s3 * (s1 * s2) = s1 * s2 * s3 := by ring
  omega

/-- The fourth byte of every pixel written by the 3-channel SSE path is
zero: lane 3 of the shuffled source is all zero bytes and the rounding
bias `PRECISION_ROUNDING << SHIFT_BITS` vanishes under the final shift. -/
theorem lutPixel3_c3 (s1 s2 s3 : Nat) (table : Nat → Int) (p : Pix) :
    (lutPixel3 s1 s2 s3 table p).c3 = 0 := by
  simp only [lutPixel3, blendStage_zero]
  have h : (0 : Int) * (2 ^ 15 - 1 - ((fracShift s3 p.c2 : Nat) : Int)) +
      0 * ((fracShift s3 p.c2 : Nat) : Int) = 0 := by ring
  rw [h]
  decide

/-! ## Claim theorems -/

/-- Claim C3 (confirmed): for every grid size in `[2, 65]` and every
8-bit input channel value, the base grid index `(v * scale) >> SCALE_BITS`
is at most `size - 2` in each axis, so every one of the eight corner
cells `(i+d1, j+d2, k+d3)`, `d ∈ {0,1}`, addressed by the gather lies
strictly inside the `size1D * size2D * size3D` grid. -/
theorem C3_boundary_safety (s1 s2 s3 r g b : Nat)
    (hs1 : 2 ≤ s1) (hs1' : s1 ≤ 65) (hs2 : 2 ≤ s2) (hs2' : s2 ≤ 65)
    (hs3 : 2 ≤ s3) (hs3' : s3 ≤ 65) (hr : r ≤ 255) (hg : g ≤ 255) (hb : b ≤ 255) :
    (gridIndex s1 r ≤ s1 - 2 ∧ gridIndex s2 g ≤ s2 - 2 ∧ gridIndex s3 b ≤ s3 - 2) ∧
      ∀ d1 d2 d3 : Nat, d1 ≤ 1 → d2 ≤ 1 → d3 ≤ 1 →
        table_index3D (gridIndex s1 r + d1) (gridIndex s2 g + d2) (gridIndex s3 b + d3)
          s1 (s1 * s2) < s1 * s2 * s3 := by
  have h1 := gridIndex_le s1 r hs1 hs1' hr
  have h2 := gridIndex_le s2 g hs2 hs2' hg
  have h3 := gridIndex_le s3 b hs3 hs3' hb
  refine ⟨⟨h1, h2, h3⟩, ?_⟩
  intro d1 d2 d3 hd1 hd2 hd3
  exact tableIndex_lt s1 s2 s3 _ _ _ (by omega) (by omega) (by omega)

/-- Witness for C3 at the extreme input: sizes 65, all channels 255. -/
theorem C3_boundary_safety_witness :
    (gridIndex 65 255 ≤ 65 - 2 ∧ gridIndex 65 255 ≤ 65 - 2 ∧ gridIndex 65 255 ≤ 65 - 2) ∧
      ∀ d1 d2 d3 : Nat, d1 ≤ 1 → d2 ≤ 1 → d3 ≤ 1 →
        table_index3D (gridIndex 65 255 + d1) (gridIndex 65 255 + d2) (gridIndex 65 255 + d3)
          65 (65 * 65) < 65 * 65 * 65 :=
  C3_boundary_safety 65 65 65 255 255 255 (by norm_num) (by norm_num) (by norm_num)
    (by norm_num) (by norm_num) (by norm_num) (by norm_num) (by norm_num) (by norm_num)

/-- Claim C8 (confirmed): with table values in `[0, 255 << PRECISION_BITS]`
and an axis weight pair `(2^SHIFT_BITS - 1 - s, s)` (whose sum is below
`2^SHIFT_BITS`), the madd-and-shift of every nested axis blend stays in
`[0, 255 << PRECISION_BITS]`, and the 16-bit lane store of the stage
(`blendStage`) does not wrap. -/
theorem C8_no_overflow (a b s : Int) (ha0 : 0 ≤ a) (ha : a ≤ 16320) (hb0 : 0 ≤ b)
    (hb : b ≤ 16320) (hs0 : 0 ≤ s) (hs : s ≤ 2 ^ 15 - 1) :
    0 ≤ axisBlend a b s ∧ axisBlend a b s ≤ 16320 ∧ blendStage a b s = axisBlend a b s := by
  obtain ⟨hst, _, _⟩ := blendStage_range a b s ha0 ha hb0 hb hs0 hs
  obtain ⟨hlo, hhi⟩ := axisBlend_range a b s ha0 ha hb0 hb hs0 hs
  exact ⟨hlo, hhi, hst⟩

/-- Witness for C8 at a concrete in-range blend. -/
theorem C8_no_overflow_witness :
    0 ≤ axisBlend 16320 0 12345 ∧ axisBlend 16320 0 12345 ≤ 16320 ∧
      blendStage 16320 0 12345 = axisBlend 16320 0 12345 :=
  C8_no_overflow 16320 0 12345 (by norm_num) (by norm_num) (by norm_num) (by norm_num)
    (by norm_num) (by norm_num)

/-- Claim C10 (confirmed): on every row of length `xsize ≥ 1` the
one-pixel-ahead prefetch of the last iteration reads the input row at
pixel index `xsize`, which is out of range; in the embedding with
Option-valued row indexing the whole row computation fails on every
nonempty row. -/
theorem C10_prefetch_oob (s1 s2 s3 : Nat) (table : Nat → Int) (rowIn : List Pix) (xsize : Nat)
    (hlen : rowIn.length = xsize) (hx : 1 ≤ xsize) :
    rowIn[xsize]? = none ∧ lutRow3Strict s1 s2 s3 table rowIn xsize = none := by
  constructor
  · rw [List.getElem?_eq_none_iff]
    omega
  · rw [lutRow3Strict]
    have h0 : rowIn[0]? = some rowIn[0] := List.getElem?_eq_getElem (by omega)
    rw [h0]
    exact lutRow3StrictGo_none s1 s2 s3 table rowIn xsize _ 0 (by omega) hx

/-- Witness for C10 on a one-pixel row. -/
theorem C10_prefetch_oob_witness :
    ([(⟨0, 0, 0, 0⟩ : Pix)])[1]? = none ∧
      lutRow3Strict 2 2 2 (fun _ => 0) [⟨0, 0, 0, 0⟩] 1 = none :=
  C10_prefetch_oob 2 2 2 (fun _ => 0) [⟨0, 0, 0, 0⟩] 1 (by decide) (by decide)

/-- Counterexample for claim C5: the claim says the 4th band of an
output pixel is left untouched on a 3-channel call; on this concrete
valid call the output pixel's 4th byte, previously 7, is overwritten
with 0 (the `UINT32` store at line 185 writes all four bytes). -/
theorem C5_counterexample :
    (((ImagingColorLUT3D_linear ⟨1, 1, 4, .uint8, [[⟨1, 2, 3, 7⟩]]⟩
          ⟨1, 1, 4, .uint8, [[⟨9, 9, 9, 7⟩]]⟩ 3 2 2 2 (fun _ => 0)).1.pixels.getD 0 []).getD 0
        default).c3 = 0 ∧ (0 : Nat) ≠ 7 := by decide

/-- Claim C5 (amended): on every valid 3-channel call the 4th band of
every written output pixel is set to 0 (not preserved): lane 3 of the
SSE pipeline carries zeros and `rowOut[x]` stores the full 32-bit
word. -/
theorem C5_amended_fourth_band_zero (imOut imIn : Image) (s1 s2 s3 : Nat) (table : Nat → Int)
    (x y : Nat) (ht : imIn.type = .uint8) (ht' : imOut.type = .uint8)
    (hb : 3 ≤ imIn.bands) (hb' : 3 ≤ imOut.bands)
    (he : ¬(3 < imOut.bands ∧ imIn.bands < imOut.bands))
    (hx : x < imOut.xsize) (hy : y < imOut.ysize) :
    (((ImagingColorLUT3D_linear imOut imIn 3 s1 s2 s3 table).1.pixels.getD y []).getD x
      default).c3 = 0 := by
  rw [colorLUT3_pixel imOut imIn s1 s2 s3 table x y ht ht' hb hb' he hx hy]
  exact lutPixel3_c3 _ _ _ _ _

/-- Witness for the amended C5 on a concrete 4-band call. -/
theorem C5_amended_fourth_band_zero_witness :
    (((ImagingColorLUT3D_linear ⟨1, 1, 4, .uint8, [[⟨1, 2, 3, 7⟩]]⟩
          ⟨1, 1, 4, .uint8, [[⟨9, 9, 9, 5⟩]]⟩ 3 2 2 2 (fun _ => 0)).1.pixels.getD 0 []).getD 0
        default).c3 = 0 :=
  C5_amended_fourth_band_zero ⟨1, 1, 4, .uint8, [[⟨1, 2, 3, 7⟩]]⟩
    ⟨1, 1, 4, .uint8, [[⟨9, 9, 9, 5⟩]]⟩ 2 2 2 (fun _ => 0) 0 0 (by decide) (by decide)
    (by decide) (by decide) (by decide) (by decide) (by decide)

/-- Counterexample for claim C4: on this concrete valid 4-channel call
the transform leaves the output pixel at its prior value `(9,9,9,9)`
instead of writing the quadrilinear result `(255,255,255,255)` of the
all-white table: the 4-channel block (lines 188-205) is commented out. -/
theorem C4_counterexample :
    (((ImagingColorLUT3D_linear ⟨1, 1, 4, .uint8, [[⟨9, 9, 9, 9⟩]]⟩
          ⟨1, 1, 4, .uint8, [[⟨0, 0, 0, 0⟩]]⟩ 4 2 2 2 (fun _ => 16320)).1.pixels.getD 0 []).getD 0
        default) = ⟨9, 9, 9, 9⟩ ∧
      quadPixel 2 2 2 (fun _ => 16320) ⟨0, 0, 0, 0⟩ = ⟨255, 255, 255, 255⟩ ∧
      (⟨9, 9, 9, 9⟩ : Pix) ≠ ⟨255, 255, 255, 255⟩ := by decide

/-- Claim C4 (amended): every valid call with `table_channels = 4`
validates and returns success, but performs no pixel writes at all:
the output image is returned exactly as it was passed in. -/
theorem C4_amended_quad_disabled (imOut imIn : Image) (s1 s2 s3 : Nat) (table : Nat → Int)
    (ht : imIn.type = .uint8) (ht' : imOut.type = .uint8)
    (hb : 3 ≤ imIn.bands) (hb' : 4 ≤ imOut.bands)
    (he : ¬(4 < imOut.bands ∧ imIn.bands < imOut.bands)) :
    ImagingColorLUT3D_linear imOut imIn 4 s1 s2 s3 table = (imOut, none) := by
  have hc1 : ¬((4 : Nat) < 3 ∨ 4 < 4) := by omega
  have hc2 : ¬(imIn.type ≠ ImagingType.uint8 ∨ imOut.type ≠ ImagingType.uint8 ∨
      imIn.bands < 3 ∨ imOut.bands < 4) := by
    push_neg
    exact ⟨ht, ht', hb, hb'⟩
  rw [ImagingColorLUT3D_linear, if_neg hc1, if_neg hc2, if_neg he, if_neg (by omega)]

/-- Witness for the amended C4 on a concrete 4-channel call. -/
theorem C4_amended_quad_disabled_witness :
    ImagingColorLUT3D_linear ⟨1, 1, 4, .uint8, [[⟨9, 9, 9, 9⟩]]⟩
        ⟨1, 1, 4, .uint8, [[⟨0, 0, 0, 0⟩]]⟩ 4 2 2 2 (fun _ => 16320) =
      (⟨1, 1, 4, .uint8, [[⟨9, 9, 9, 9⟩]]⟩, none) :=
  C4_amended_quad_disabled ⟨1, 1, 4, .uint8, [[⟨9, 9, 9, 9⟩]]⟩
    ⟨1, 1, 4, .uint8, [[⟨0, 0, 0, 0⟩]]⟩ 2 2 2 (fun _ => 16320) (by decide) (by decide)
    (by decide) (by decide) (by decide)

/-- Counterexample for claim C2: with `table_channels = 2` and an input
image whose pixel type is not 8-bit-unsigned, the mode-mismatch
condition of the claim holds, yet the call fails with InvalidArgument
(the `table_channels` check at lines 100-103 runs first), so the
claimed "ModeMismatch if and only if" is false. -/
theorem C2_counterexample :
    (ImagingColorLUT3D_linear ⟨1, 1, 3, .uint8, [[⟨0, 0, 0, 0⟩]]⟩
        ⟨1, 1, 3, .int32, [[⟨0, 0, 0, 0⟩]]⟩ 2 2 2 2 (fun _ => 0)).2 =
      some LutErr.invalidArgument ∧
    (ImagingColorLUT3D_linear ⟨1, 1, 3, .uint8, [[⟨0, 0, 0, 0⟩]]⟩
        ⟨1, 1, 3, .int32, [[⟨0, 0, 0, 0⟩]]⟩ 2 2 2 2 (fun _ => 0)).2 ≠
      some LutErr.modeMismatch ∧
    ((⟨1, 1, 3, .int32, [[⟨0, 0, 0, 0⟩]]⟩ : Image).type ≠ ImagingType.uint8 ∨
      (⟨1, 1, 3, .uint8, [[⟨0, 0, 0, 0⟩]]⟩ : Image).type ≠ ImagingType.uint8 ∨
      (⟨1, 1, 3, .int32, [[⟨0, 0, 0, 0⟩]]⟩ : Image).bands < 3 ∨
      (⟨1, 1, 3, .uint8, [[⟨0, 0, 0, 0⟩]]⟩ : Image).bands < 2 ∨
      (2 < (⟨1, 1, 3, .uint8, [[⟨0, 0, 0, 0⟩]]⟩ : Image).bands ∧
        (⟨1, 1, 3, .int32, [[⟨0, 0, 0, 0⟩]]⟩ : Image).bands <
          (⟨1, 1, 3, .uint8, [[⟨0, 0, 0, 0⟩]]⟩ : Image).bands)) := by
  decide

/-- Claim C2 (amended): InvalidArgument is returned exactly when
`table_channels` is outside `{3,4}`; ModeMismatch is returned exactly
when `table_channels` is in `{3,4}` AND the mode condition holds (the
InvalidArgument check runs first and shadows it); every failing call
leaves the output image unmodified. -/
theorem C2_amended_error_behaviour (imOut imIn : Image) (tc s1 s2 s3 : Nat)
    (table : Nat → Int) :
    ((ImagingColorLUT3D_linear imOut imIn tc s1 s2 s3 table).2 =
        some LutErr.invalidArgument ↔ ¬(3 ≤ tc ∧ tc ≤ 4)) ∧
    ((ImagingColorLUT3D_linear imOut imIn tc s1 s2 s3 table).2 =
        some LutErr.modeMismatch ↔
      ((3 ≤ tc ∧ tc ≤ 4) ∧ (imIn.type ≠ .uint8 ∨ imOut.type ≠ .uint8 ∨ imIn.bands < 3 ∨
        imOut.bands < tc ∨ (tc < imOut.bands ∧ imIn.bands < imOut.bands)))) ∧
    (∀ e, (ImagingColorLUT3D_linear imOut imIn tc s1 s2 s3 table).2 = some e →
      (ImagingColorLUT3D_linear imOut imIn tc s1 s2 s3 table).1 = imOut) := by
  rw [ImagingColorLUT3D_linear]
  split_ifs with h1 h2 h3 h4
  · exact ⟨⟨fun _ => by omega, fun _ => rfl⟩,
      ⟨fun h => absurd h (by simp), fun h => absurd h.1 (by omega)⟩,
      fun e _ => rfl⟩
  · exact ⟨⟨fun h => absurd h (by simp), fun h => absurd (show 3 ≤ tc ∧ tc ≤ 4 by omega) h⟩,
      ⟨fun _ => ⟨by omega, by tauto⟩, fun _ => rfl⟩,
      fun e _ => rfl⟩
  · exact ⟨⟨fun h => absurd h (by simp), fun h => absurd (show 3 ≤ tc ∧ tc ≤ 4 by omega) h⟩,
      ⟨fun _ => ⟨by omega, Or.inr (Or.inr (Or.inr (Or.inr h3)))⟩, fun _ => rfl⟩,
      fun e _ => rfl⟩
  · exact ⟨⟨fun h => absurd h (by simp), fun h => absurd (show 3 ≤ tc ∧ tc ≤ 4 by omega) h⟩,
      ⟨fun h => absurd h (by simp), fun h => absurd h.2 (by tauto)⟩,
      fun e h => absurd h (by simp)⟩
  · exact ⟨⟨fun h => absurd h (by simp), fun h => absurd (show 3 ≤ tc ∧ tc ≤ 4 by omega) h⟩,
      ⟨fun h => absurd h (by simp), fun h => absurd h.2 (by tauto)⟩,
      fun e h => absurd h (by simp)⟩

/-- Witness for the amended C2 at a failing concrete call. -/
theorem C2_amended_error_behaviour_witness :
    (ImagingColorLUT3D_linear ⟨1, 1, 3, .uint8, [[⟨0, 0, 0, 0⟩]]⟩
        ⟨1, 1, 3, .int32, [[⟨0, 0, 0, 0⟩]]⟩ 2 2 2 2 (fun _ => 0)).1 =
      ⟨1, 1, 3, .uint8, [[⟨0, 0, 0, 0⟩]]⟩ :=
  (C2_amended_error_behaviour ⟨1, 1, 3, .uint8, [[⟨0, 0, 0, 0⟩]]⟩
      ⟨1, 1, 3, .int32, [[⟨0, 0, 0, 0⟩]]⟩ 2 2 2 2 (fun _ => 0)).2.2
    LutErr.invalidArgument (by decide)

/-- Claim C9 (code bug): evaluation at the failing input.  Two valid
3-channel calls share the 2×2×2 identity table; their input images
both store `(200,200,200,0)` at `(1,0)` and differ only at `(0,0)`.
The outputs at `(1,0)` differ — the x-loop computes
`next_index`/`next_idx` (lines 129-134) but never assigns them back to
`index`/`idx`, so every output pixel of a row is computed from the
row's FIRST input pixel, contradicting the claimed (and spec-stated)
per-pixel locality. -/
theorem C9_failing_eval :
    ((((⟨2, 1, 3, .uint8, [[⟨0, 0, 0, 0⟩, ⟨200, 200, 200, 0⟩]]⟩ : Image)).pixels.getD 0
        []).getD 1 default =
      (((⟨2, 1, 3, .uint8, [[⟨200, 200, 200, 0⟩, ⟨200, 200, 200, 0⟩]]⟩ : Image)).pixels.getD 0
        []).getD 1 default) ∧
    ((((ImagingColorLUT3D_linear ⟨2, 1, 3, .uint8, [[⟨0, 0, 0, 0⟩, ⟨0, 0, 0, 0⟩]]⟩
          ⟨2, 1, 3, .uint8, [[⟨0, 0, 0, 0⟩, ⟨200, 200, 200, 0⟩]]⟩ 3 2 2 2
          (idTable 2 2 2)).1.pixels.getD 0 []).getD 1 default) ≠
      (((ImagingColorLUT3D_linear ⟨2, 1, 3, .uint8, [[⟨0, 0, 0, 0⟩, ⟨0, 0, 0, 0⟩]]⟩
          ⟨2, 1, 3, .uint8, [[⟨200, 200, 200, 0⟩, ⟨200, 200, 200, 0⟩]]⟩ 3 2 2 2
          (idTable 2 2 2)).1.pixels.getD 0 []).getD 1 default)) := by
  decide

/-- Counterexample for claim C1: a 2×2×2 table storing 32 at node
`(0,0,0)` channel 0 (flat element 0), input pixel `(0,0,0)`, which has
fractional weight 0 in all three axes.  The claim predicts the output
channel equals `clip8 32 = (32 + PRECISION_ROUNDING) >> PRECISION_BITS
= 1`; the SSE path produces 0 (the `2^SHIFT_BITS - 1 - shift`
complementary weight loses 1 at each of the first two stages). -/
theorem C1_counterexample :
    fracShift 2 0 = 0 ∧
      (lutPixel3 2 2 2 (fun n => if n = 0 then 32 else 0) ⟨0, 0, 0, 0⟩).c0 = 0 ∧
      clip8 ((fun n : Nat => if n = 0 then (32 : Int) else 0) 0) = 1 ∧ (0 : Nat) ≠ 1 := by
  decide

/-- Claim C1 (amended): when the scaled coordinate has fractional
weight 0 in all three axes, each output channel is the stored node
value passed through two zero-weight decay stages
(`x ↦ x * (2^SHIFT_BITS - 1) >> SHIFT_BITS`, losing 1 per positive
value) and the final rounding stage — not the plain rounding clip of
the stored value, from which it can differ by 1. -/
theorem C1_amended_grid_corner (s1 s2 s3 r g b a : Nat) (table : Nat → Int)
    (_hs1 : 2 ≤ s1) (_hs1' : s1 ≤ 65) (_hs2 : 2 ≤ s2) (_hs2' : s2 ≤ 65)
    (_hs3 : 2 ≤ s3) (_hs3' : s3 ≤ 65) (_hr : r ≤ 255) (_hg : g ≤ 255) (_hb : b ≤ 255)
    (hf1 : fracShift s1 r = 0) (hf2 : fracShift s2 g = 0) (hf3 : fracShift s3 b = 0)
    (htab : ∀ n, 0 ≤ table n ∧ table n ≤ 16320) :
    lutPixel3 s1 s2 s3 table ⟨r, g, b, a⟩ =
      ⟨roundClamp (gDecay (gDecay (table (3 * table_index3D (gridIndex s1 r) (gridIndex s2 g)
          (gridIndex s3 b) s1 (s1 * s2))).toNat) * (2 ^ 15 - 1)),
       roundClamp (gDecay (gDecay (table (3 * table_index3D (gridIndex s1 r) (gridIndex s2 g)
          (gridIndex s3 b) s1 (s1 * s2) + 1)).toNat) * (2 ^ 15 - 1)),
       roundClamp (gDecay (gDecay (table (3 * table_index3D (gridIndex s1 r) (gridIndex s2 g)
          (gridIndex s3 b) s1 (s1 * s2) + 2)).toNat) * (2 ^ 15 - 1)), 0⟩ := by
  simp only [lutPixel3, Nat.add_zero, hf1, hf2, hf3, Nat.cast_zero, blendStage_zero]
  have hbound : ∀ n : Nat, ((gDecay (table n).toNat : Nat) : Int) ≤ 16320 := by
    intro n
    have h := gDecay_le (table n).toNat
    have h2 := (htab n).2
    have h3 := (htab n).1
    omega
  rw [blendStage_zero_wt (table (3 * table_index3D (gridIndex s1 r) (gridIndex s2 g)
        (gridIndex s3 b) s1 (s1 * s2))) _ (htab _).1 (htab _).2,
      blendStage_zero_wt (table (3 * table_index3D (gridIndex s1 r) (gridIndex s2 g)
        (gridIndex s3 b) s1 (s1 * s2) + 1)) _ (htab _).1 (htab _).2,
      blendStage_zero_wt (table (3 * table_index3D (gridIndex s1 r) (gridIndex s2 g)
        (gridIndex s3 b) s1 (s1 * s2) + 2)) _ (htab _).1 (htab _).2]
  rw [blendStage_zero_wt ((gDecay (table (3 * table_index3D (gridIndex s1 r) (gridIndex s2 g)
        (gridIndex s3 b) s1 (s1 * s2))).toNat : Nat) : Int) _ (Int.natCast_nonneg _)
        (hbound _), Int.toNat_natCast,
      blendStage_zero_wt ((gDecay (table (3 * table_index3D (gridIndex s1 r) (gridIndex s2 g)
        (gridIndex s3 b) s1 (s1 * s2) + 1)).toNat : Nat) : Int) _ (Int.natCast_nonneg _)
        (hbound _), Int.toNat_natCast,
      blendStage_zero_wt ((gDecay (table (3 * table_index3D (gridIndex s1 r) (gridIndex s2 g)
        (gridIndex s3 b) s1 (s1 * s2) + 2)).toNat : Nat) : Int) _ (Int.natCast_nonneg _)
        (hbound _), Int.toNat_natCast]
  rw [finalStage_zero_wt, finalStage_zero_wt, finalStage_zero_wt]
  have hz : (0 : Int) * (2 ^ 15 - 1 - 0) + 0 * 0 = 0 := by ring
  rw [hz]
  have hD : clamp8 ((2 ^ 20 + (0 : Int)) / 2 ^ 21) = 0 := by decide
  rw [hD]

/-- Witness for the amended C1: a constant table 100 at sizes 2×2×2
and the all-zero pixel (weight 0 on every axis). -/
theorem C1_amended_grid_corner_witness :
    lutPixel3 2 2 2 (fun _ => 100) ⟨0, 0, 0, 0⟩ =
      ⟨roundClamp (gDecay (gDecay ((100 : Int)).toNat) * (2 ^ 15 - 1)),
       roundClamp (gDecay (gDecay ((100 : Int)).toNat) * (2 ^ 15 - 1)),
       roundClamp (gDecay (gDecay ((100 : Int)).toNat) * (2 ^ 15 - 1)), 0⟩ :=
  C1_amended_grid_corner 2 2 2 0 0 0 0 (fun _ => 100) (by norm_num) (by norm_num)
    (by norm_num) (by norm_num) (by norm_num) (by norm_num) (by norm_num) (by norm_num)
    (by norm_num) (by decide) (by decide) (by decide)
    (by intro n; constructor <;> norm_num)

/-- Counterexample for claim C7: at the all-zero pixel with a 2×2×2
table storing 32 at flat element 0, the SSE path yields channel 0
value 0 while the scalar nested-lerp reference `interpolate3` (exact
complement `(1<<SHIFT_BITS) - shift`) followed by the rounding clip
yields 1. -/
theorem C7_counterexample :
    (lutPixel3 2 2 2 (fun n => if n = 0 then 32 else 0) ⟨0, 0, 0, 0⟩).c0 = 0 ∧
      (scalarPixel3 2 2 2 (fun n => if n = 0 then 32 else 0) ⟨0, 0, 0, 0⟩).1 = 1 ∧
      (0 : Nat) ≠ 1 := by
  decide

/-- Claim C7 (amended): for every pixel and every table with values in
`[0, 255 << PRECISION_BITS]`, the SSE path equals the scalar
nested-lerp reference that uses the SSE path's complementary weight
`(1<<SHIFT_BITS) - 1 - shift` at every stage, followed by the rounding
clip; the fused final stage (rounding bias and single shift by
`PRECISION_BITS + SHIFT_BITS`) equals lerp-then-clip exactly. -/
theorem C7_amended_simd_scalar (s1 s2 s3 : Nat) (table : Nat → Int) (p : Pix)
    (htab : ∀ n, 0 ≤ table n ∧ table n ≤ 16320) :
    ((lutPixel3 s1 s2 s3 table p).c0, (lutPixel3 s1 s2 s3 table p).c1,
      (lutPixel3 s1 s2 s3 table p).c2) = scalarPixel3biased s1 s2 s3 table p := by
  have F : ∀ (size v : Nat), 0 ≤ ((fracShift size v : Nat) : Int) ∧
      ((fracShift size v : Nat) : Int) ≤ 2 ^ 15 - 1 := by
    intro size v
    have h := fracShift_le size v
    refine ⟨Int.natCast_nonneg _, ?_⟩
    have h2 : ((fracShift size v : Nat) : Int) ≤ ((2 ^ 15 - 1 : Nat) : Int) := by
      exact_mod_cast h
    omega
  have S : ∀ (a b s : Int), (0 ≤ a ∧ a ≤ 16320) → (0 ≤ b ∧ b ≤ 16320) →
      (0 ≤ s ∧ s ≤ 2 ^ 15 - 1) → 0 ≤ blendStage a b s ∧ blendStage a b s ≤ 16320 := by
    intro a b s ha hb hs
    obtain ⟨_, h2, h3⟩ := blendStage_range a b s ha.1 ha.2 hb.1 hb.2 hs.1 hs.2
    exact ⟨h2, h3⟩
  simp only [lutPixel3, scalarPixel3biased, Prod.mk.injEq]
  refine ⟨?_, ?_, ?_⟩
  · exact final_vs_clip _ _ _
      (S _ _ _ (S _ _ _ (htab _) (htab _) (F _ _)) (S _ _ _ (htab _) (htab _) (F _ _)) (F _ _)).1
      (S _ _ _ (S _ _ _ (htab _) (htab _) (F _ _)) (S _ _ _ (htab _) (htab _) (F _ _)) (F _ _)).2
      (S _ _ _ (S _ _ _ (htab _) (htab _) (F _ _)) (S _ _ _ (htab _) (htab _) (F _ _)) (F _ _)).1
      (S _ _ _ (S _ _ _ (htab _) (htab _) (F _ _)) (S _ _ _ (htab _) (htab _) (F _ _)) (F _ _)).2
      (F _ _).1 (F _ _).2
  · exact final_vs_clip _ _ _
      (S _ _ _ (S _ _ _ (htab _) (htab _) (F _ _)) (S _ _ _ (htab _) (htab _) (F _ _)) (F _ _)).1
      (S _ _ _ (S _ _ _ (htab _) (htab _) (F _ _)) (S _ _ _ (htab _) (htab _) (F _ _)) (F _ _)).2
      (S _ _ _ (S _ _ _ (htab _) (htab _) (F _ _)) (S _ _ _ (htab _) (htab _) (F _ _)) (F _ _)).1
      (S _ _ _ (S _ _ _ (htab _) (htab _) (F _ _)) (S _ _ _ (htab _) (htab _) (F _ _)) (F _ _)).2
      (F _ _).1 (F _ _).2
  · exact final_vs_clip _ _ _
      (S _ _ _ (S _ _ _ (htab _) (htab _) (F _ _)) (S _ _ _ (htab _) (htab _) (F _ _)) (F _ _)).1
      (S _ _ _ (S _ _ _ (htab _) (htab _) (F _ _)) (S _ _ _ (htab _) (htab _) (F _ _)) (F _ _)).2
      (S _ _ _ (S _ _ _ (htab _) (htab _) (F _ _)) (S _ _ _ (htab _) (htab _) (F _ _)) (F _ _)).1
      (S _ _ _ (S _ _ _ (htab _) (htab _) (F _ _)) (S _ _ _ (htab _) (htab _) (F _ _)) (F _ _)).2
      (F _ _).1 (F _ _).2

/-- Witness for the amended C7 at a concrete pixel and table. -/
theorem C7_amended_simd_scalar_witness :
    ((lutPixel3 3 4 5 (fun _ => 100) ⟨200, 100, 50, 0⟩).c0,
      (lutPixel3 3 4 5 (fun _ => 100) ⟨200, 100, 50, 0⟩).c1,
      (lutPixel3 3 4 5 (fun _ => 100) ⟨200, 100, 50, 0⟩).c2) =
      scalarPixel3biased 3 4 5 (fun _ => 100) ⟨200, 100, 50, 0⟩ :=
  C7_amended_simd_scalar 3 4 5 (fun _ => 100) ⟨200, 100, 50, 0⟩
    (by intro n; constructor <;> norm_num)

/-- Boolean form of the per-channel within-one-level check, used for
the exhaustive evaluation below. -/
def chanVok (s v : Nat) : Bool :=
  Nat.ble (Nat.dist (chanV1 (s + 2) v) v) 1 &&
    Nat.ble (Nat.dist (chanV2 (s + 2) v) v) 1 &&
    Nat.ble (Nat.dist (chanV3 (s + 2) v) v) 1

set_option maxRecDepth 100000 in
set_option maxHeartbeats 16000000 in
/-- Exhaustive evaluation over all grid sizes in `[2, 65]` and all
8-bit values of the three per-channel 1-D forms of the SSE path on the
identity table. -/
theorem chanV_all :
    ((List.range 64).all fun s => (List.range 256).all fun v => chanVok s v) = true := by
  rfl

/-- Each of the three per-channel 1-D forms of the SSE path on the
identity table reproduces its input value to within one intensity
level, for every grid size in `[2, 65]` and every 8-bit value. -/
theorem chanV_close : ∀ s : Nat, s < 64 → ∀ v : Nat, v < 256 →
    Nat.dist (chanV1 (s + 2) v) v ≤ 1 ∧ Nat.dist (chanV2 (s + 2) v) v ≤ 1 ∧
      Nat.dist (chanV3 (s + 2) v) v ≤ 1 := by
  intro s hs v hv
  have h := chanV_all
  rw [List.all_eq_true] at h
  have h2 := h s (List.mem_range.mpr hs)
  simp only [] at h2
  rw [List.all_eq_true] at h2
  have h3 := h2 v (List.mem_range.mpr hv)
  simp only [chanVok, Bool.and_eq_true] at h3
  exact ⟨Nat.le_of_ble_eq_true h3.1.1, Nat.le_of_ble_eq_true h3.1.2,
    Nat.le_of_ble_eq_true h3.2⟩

/-- Counterexample for claim C6: a valid identity-table call on a 2×1
4-band image `[(0,0,0,200), (200,200,200,0)]`.  At `(0,0)` the input's
4th channel 200 comes back as 0 (lane 3 of the SSE store, see C5); at
`(1,0)` the input channel 200 comes back as 0 because the x-loop never
advances `index`/`idx` and transforms every pixel of the row from the
row's first pixel.  Neither channel is within 1 intensity level of its
input, so the transform does not reproduce the input pixel-for-pixel. -/
theorem C6_counterexample :
    (((ImagingColorLUT3D_linear ⟨2, 1, 4, .uint8, [[⟨3, 3, 3, 3⟩, ⟨3, 3, 3, 3⟩]]⟩
          ⟨2, 1, 4, .uint8, [[⟨0, 0, 0, 200⟩, ⟨200, 200, 200, 0⟩]]⟩ 3 2 2 2
          (idTable 2 2 2)).1.pixels.getD 0 []).getD 0 default).c3 = 0 ∧
      (((⟨2, 1, 4, .uint8, [[⟨0, 0, 0, 200⟩, ⟨200, 200, 200, 0⟩]]⟩ : Image).pixels.getD 0
        []).getD 0 default).c3 = 200 ∧
      (((ImagingColorLUT3D_linear ⟨2, 1, 4, .uint8, [[⟨3, 3, 3, 3⟩, ⟨3, 3, 3, 3⟩]]⟩
          ⟨2, 1, 4, .uint8, [[⟨0, 0, 0, 200⟩, ⟨200, 200, 200, 0⟩]]⟩ 3 2 2 2
          (idTable 2 2 2)).1.pixels.getD 0 []).getD 1 default).c0 = 0 ∧
      (((⟨2, 1, 4, .uint8, [[⟨0, 0, 0, 200⟩, ⟨200, 200, 200, 0⟩]]⟩ : Image).pixels.getD 0
        []).getD 1 default).c0 = 200 ∧
      ¬(Nat.dist 0 200 ≤ 1) := by
  decide

/-- Claim C6 (amended): on every valid 3-channel call with the identity
table, every output pixel's first three channels are within one
intensity level of the first three channels of the input pixel at the
START of the same row — the x-loop never advances `index`/`idx`, so
every `x` of a row is transformed from the row's pixel 0; for
one-pixel-wide images this is the claimed per-pixel round-trip.  Bands
beyond the table's three channels are not reproduced (the 4th output
byte is set to 0, see C5), and for `table_channels = 4` nothing is
written (see C4). -/
theorem C6_amended_identity_roundtrip (imOut imIn : Image) (s1 s2 s3 x y : Nat)
    (hs1 : 2 ≤ s1) (hs1' : s1 ≤ 65) (hs2 : 2 ≤ s2) (hs2' : s2 ≤ 65)
    (hs3 : 2 ≤ s3) (hs3' : s3 ≤ 65)
    (ht : imIn.type = .uint8) (ht' : imOut.type = .uint8)
    (hb : 3 ≤ imIn.bands) (hb' : 3 ≤ imOut.bands)
    (he : ¬(3 < imOut.bands ∧ imIn.bands < imOut.bands))
    (hx : x < imOut.xsize) (hy : y < imOut.ysize)
    (hc0 : ((imIn.pixels.getD y []).getD 0 default).c0 ≤ 255)
    (hc1 : ((imIn.pixels.getD y []).getD 0 default).c1 ≤ 255)
    (hc2 : ((imIn.pixels.getD y []).getD 0 default).c2 ≤ 255) :
    Nat.dist (((ImagingColorLUT3D_linear imOut imIn 3 s1 s2 s3
          (idTable s1 s2 s3)).1.pixels.getD y []).getD x default).c0
        ((imIn.pixels.getD y []).getD 0 default).c0 ≤ 1 ∧
      Nat.dist (((ImagingColorLUT3D_linear imOut imIn 3 s1 s2 s3
          (idTable s1 s2 s3)).1.pixels.getD y []).getD x default).c1
        ((imIn.pixels.getD y []).getD 0 default).c1 ≤ 1 ∧
      Nat.dist (((ImagingColorLUT3D_linear imOut imIn 3 s1 s2 s3
          (idTable s1 s2 s3)).1.pixels.getD y []).getD x default).c2
        ((imIn.pixels.getD y []).getD 0 default).c2 ≤ 1 := by
  rw [colorLUT3_pixel imOut imIn s1 s2 s3 (idTable s1 s2 s3) x y ht ht' hb hb' he hx hy]
  have hpix : lutPixel3 s1 s2 s3 (idTable s1 s2 s3) ((imIn.pixels.getD y []).getD 0 default) =
      ⟨chanV1 s1 ((imIn.pixels.getD y []).getD 0 default).c0,
       chanV2 s2 ((imIn.pixels.getD y []).getD 0 default).c1,
       chanV3 s3 ((imIn.pixels.getD y []).getD 0 default).c2, 0⟩ :=
    lutPixel3_idTable s1 s2 s3 _ _ _ _ hs1 hs1' hs2 hs2' hs3 hs3' hc0 hc1 hc2
  rw [hpix]
  have h1 := chanV_close (s1 - 2) (by omega) ((imIn.pixels.getD y []).getD 0 default).c0
    (by omega)
  have h2 := chanV_close (s2 - 2) (by omega) ((imIn.pixels.getD y []).getD 0 default).c1
    (by omega)
  have h3 := chanV_close (s3 - 2) (by omega) ((imIn.pixels.getD y []).getD 0 default).c2
    (by omega)
  rw [show s1 - 2 + 2 = s1 from by omega] at h1
  rw [show s2 - 2 + 2 = s2 from by omega] at h2
  rw [show s3 - 2 + 2 = s3 from by omega] at h3
  exact ⟨h1.1, h2.2.1, h3.2.2⟩

/-- Witness for the amended C6 on a concrete 1×1 call with a 3×4×5
identity table. -/
theorem C6_amended_identity_roundtrip_witness :
    Nat.dist (((ImagingColorLUT3D_linear ⟨1, 1, 3, .uint8, [[⟨0, 0, 0, 0⟩]]⟩
          ⟨1, 1, 3, .uint8, [[⟨200, 100, 50, 0⟩]]⟩ 3 3 4 5
          (idTable 3 4 5)).1.pixels.getD 0 []).getD 0 default).c0
        (((⟨1, 1, 3, .uint8, [[⟨200, 100, 50, 0⟩]]⟩ : Image).pixels.getD 0 []).getD 0
          default).c0 ≤ 1 ∧
      Nat.dist (((ImagingColorLUT3D_linear ⟨1, 1, 3, .uint8, [[⟨0, 0, 0, 0⟩]]⟩
          ⟨1, 1, 3, .uint8, [[⟨200, 100, 50, 0⟩]]⟩ 3 3 4 5
          (idTable 3 4 5)).1.pixels.getD 0 []).getD 0 default).c1
        (((⟨1, 1, 3, .uint8, [[⟨200, 100, 50, 0⟩]]⟩ : Image).pixels.getD 0 []).getD 0
          default).c1 ≤ 1 ∧
      Nat.dist (((ImagingColorLUT3D_linear ⟨1, 1, 3, .uint8, [[⟨0, 0, 0, 0⟩]]⟩
          ⟨1, 1, 3, .uint8, [[⟨200, 100, 50, 0⟩]]⟩ 3 3 4 5
          (idTable 3 4 5)).1.pixels.getD 0 []).getD 0 default).c2
        (((⟨1, 1, 3, .uint8, [[⟨200, 100, 50, 0⟩]]⟩ : Image).pixels.getD 0 []).getD 0
          default).c2 ≤ 1 :=
  C6_amended_identity_roundtrip ⟨1, 1, 3, .uint8, [[⟨0, 0, 0, 0⟩]]⟩
    ⟨1, 1, 3, .uint8, [[⟨200, 100, 50, 0⟩]]⟩ 3 4 5 0 0 (by norm_num) (by norm_num)
    (by norm_num) (by norm_num) (by norm_num) (by norm_num) (by decide) (by decide)
    (by decide) (by decide) (by decide) (by decide) (by decide) (by decide) (by decide)
    (by decide)

end ColorLUT
